import Mathlib

/-! # KubeArmorOperator: the helm release controller

A shallow embedding of `internal/helm/helm.go` (values trees, the deep merge, the
configuration projector, the node sink, the migration decision and the release
driver) together with the properties proved about it.

Go maps of type `map[string]interface{}` are embedded as association lists
(`Fields`): `lookup` is the Go read `m[k]`, `setKey` is the Go write `m[k] = v`
(overwrite in place, or append a new entry), and a `range` loop visits the
entries in list order.  A Go map never holds a key twice; that representation
invariant is `Fields.nodupKeys`.
-/

set_option autoImplicit false

namespace Helm

/-! ## Values trees -/

mutual
/-- The dynamic values (`interface{}`) that occur in a helm values tree. -/
inductive Value where
  /-- A Go `string`. -/
  | str (s : String)
  /-- A Go `int`. -/
  | int (n : Int)
  /-- A Go `bool`. -/
  | bool (b : Bool)
  /-- A Go `[]string`. -/
  | strs (l : List String)
  /-- A Go `[]map[string]interface{}`. -/
  | maps (l : MapList)
  /-- A Go `map[string]interface{}`. -/
  | map (m : Fields)
/-- The entries of a `map[string]interface{}`. -/
inductive Fields where
  | nil
  | cons (k : String) (v : Value) (rest : Fields)
/-- The elements of a `[]map[string]interface{}`. -/
inductive MapList where
  | nil
  | cons (m : Fields) (rest : MapList)
end

deriving instance DecidableEq for Value, Fields, MapList

/-- Go `len(s)` for a slice of maps. -/
def MapList.len : MapList → Nat
  | .nil => 0
  | .cons _ rest => rest.len + 1

/-- Go `len(m)`: the number of entries of the map. -/
def Fields.len : Fields → Nat
  | .nil => 0
  | .cons _ _ rest => rest.len + 1

/-- The keys of the map, in entry order. -/
def Fields.keys : Fields → List String
  | .nil => []
  | .cons k _ rest => k :: rest.keys

/-- The representation invariant of a Go map: no key occurs twice. -/
def Fields.nodupKeys (m : Fields) : Prop := m.keys.Nodup

instance (m : Fields) : Decidable m.nodupKeys := by
  unfold Fields.nodupKeys; infer_instance

/-- Go `v, ok := m[k]`: `none` when the key is absent. -/
def lookup (k : String) : Fields → Option Value
  | .nil => none
  | .cons k' v rest => if k' = k then some v else lookup k rest

/-- Go `m[k] = v`: overwrite the entry of `k`, or add one. -/
def setKey (k : String) (v : Value) : Fields → Fields
  | .nil => .cons k v .nil
  | .cons k' v' rest =>
      if k' = k then .cons k v rest else .cons k' v' (setKey k v rest)

/-! ## mergeMaps -/

/-- The first loop of `mergeMaps`: `for k, v := range a { out[k] = v }`. -/
def copyLoop : (a : Fields) → (out : Fields) → Fields
  | .nil, out => out
  | .cons k v rest, out => copyLoop rest (setKey k v out)

/-- The second loop of `mergeMaps`, `for k, v := range b { ... }`, where the
recursive call `mergeMaps(bv, v)` is the copy of `bv` followed by this loop
over `v`. -/
def mergeLoop : (b : Fields) → (out : Fields) → Fields
  | .nil, out => out
  | .cons k (.map v) rest, out =>
      match lookup k out with
      | some (.map bv) =>
          mergeLoop rest (setKey k (.map (mergeLoop v (copyLoop bv .nil))) out)
      | _ => mergeLoop rest (setKey k (.map v) out)
  | .cons k v rest, out => mergeLoop rest (setKey k v out)
termination_by structural b => b

/-- The function `mergeMaps(a, b)` of helm.go: copy `a` into a fresh map, then
lay `b` over it, merging recursively where both sides hold a map. -/
def mergeMaps (a b : Fields) : Fields :=
  mergeLoop b (copyLoop a .nil)

/-- The reference deep merge, read at one key: what the specification says the
merged tree holds at `k`. -/
def mergeAt (a b : Fields) (k : String) : Option Value :=
  match lookup k b with
  | some (.map v) =>
      match lookup k a with
      | some (.map bv) => some (.map (mergeMaps bv v))
      | _ => some (.map v)
  | some v => some v
  | none => lookup k a

/-! ### Sample trees of the specification and of `TestMergeMaps` -/

/-- The tree `{a: 1, b: {x: 1}}`. -/
def sampleBase : Fields :=
  .cons "a" (.int 1) (.cons "b" (.map (.cons "x" (.int 1) .nil)) .nil)

/-- The tree `{b: {y: 2}}`. -/
def sampleOverlay : Fields :=
  .cons "b" (.map (.cons "y" (.int 2) .nil)) .nil

/-- The tree `{a: 1, b: {x: 1, y: 2}}`. -/
def sampleMerged : Fields :=
  .cons "a" (.int 1)
    (.cons "b" (.map (.cons "x" (.int 1) (.cons "y" (.int 2) .nil))) .nil)

/-- The `originalMap` of `TestMergeMaps`. -/
def originalMap : Fields :=
  .cons "image"
    (.map (.cons "repository" (.str "kubearmor/kubearmor")
      (.cons "tag" (.str "latest") .nil))) .nil

/-- The `updatedMap` of `TestMergeMaps`. -/
def updatedMap : Fields :=
  .cons "image" (.map (.cons "tag" (.str "stable") .nil)) .nil

/-! ## Go library functions used by the controller -/

/-- Go `strconv.FormatBool`. -/
def FormatBool (b : Bool) : String :=
  if b then "true" else "false"

/-- Splitting a character sequence at every occurrence of `sep`; the result
always has one more piece than there are separators. -/
def splitChars (sep : Char) : List Char → List (List Char)
  | [] => [[]]
  | c :: cs =>
      if c = sep then [] :: splitChars sep cs
      else
        match splitChars sep cs with
        | [] => [[c]]
        | piece :: pieces => (c :: piece) :: pieces

/-- Go `strings.Split(s, sep)` for a separator of one character. -/
def Split (s : String) (sep : Char) : List String :=
  (splitChars sep s.data).map String.mk

/-! ## The KubeArmorConfig API type (`api/v1/kubearmorconfig_types.go`) -/

/-- The struct `ImageSpec`. -/
structure ImageSpec where
  Image : String
  ImagePullPolicy : String
  deriving DecidableEq

/-- The method `ImageSpec.IsEmpty`: comparison with the zero value. -/
def ImageSpec.IsEmpty (i : ImageSpec) : Bool :=
  decide (i = { Image := "", ImagePullPolicy := "" })

/-- The struct `Tls`. -/
structure Tls where
  Enable : Bool
  RelayExtraDnsNames : List String
  RelayExtraIpAddresses : List String
  deriving DecidableEq

/-- The struct `KubeArmorConfigSpec`; `PostureType` is a string type. -/
structure KubeArmorConfigSpec where
  DefaultFilePosture : String
  DefaultCapabilitiesPosture : String
  DefaultNetworkPosture : String
  DefaultVisibility : String
  KubeArmorImage : ImageSpec
  KubeArmorInitImage : ImageSpec
  KubeArmorRelayImage : ImageSpec
  KubeArmorControllerImage : ImageSpec
  KubeRbacProxyImage : ImageSpec
  Tls : Tls
  EnableStdOutLogs : Bool
  EnableStdOutAlerts : Bool
  EnableStdOutMsgs : Bool
  SeccompEnabled : Bool
  AlertThrottling : Bool
  MaxAlertPerSec : Int
  ThrottleSec : Int
  deriving DecidableEq

/-- The struct `KubeArmorConfigStatus`. -/
structure KubeArmorConfigStatus where
  Phase : String
  Message : String
  deriving DecidableEq

/-- The struct `KubeArmorConfig` (object metadata left out: the controller
reads `Spec` only). -/
structure KubeArmorConfig where
  Spec : KubeArmorConfigSpec
  Status : KubeArmorConfigStatus
  deriving DecidableEq

/-- The zero value of `ImageSpec`. -/
def ImageSpec.zero : ImageSpec := { Image := "", ImagePullPolicy := "" }

/-- The zero value of `KubeArmorConfigSpec`. -/
def KubeArmorConfigSpec.zero : KubeArmorConfigSpec where
  DefaultFilePosture := ""
  DefaultCapabilitiesPosture := ""
  DefaultNetworkPosture := ""
  DefaultVisibility := ""
  KubeArmorImage := ImageSpec.zero
  KubeArmorInitImage := ImageSpec.zero
  KubeArmorRelayImage := ImageSpec.zero
  KubeArmorControllerImage := ImageSpec.zero
  KubeRbacProxyImage := ImageSpec.zero
  Tls := { Enable := false, RelayExtraDnsNames := [], RelayExtraIpAddresses := [] }
  EnableStdOutLogs := false
  EnableStdOutAlerts := false
  EnableStdOutMsgs := false
  SeccompEnabled := false
  AlertThrottling := false
  MaxAlertPerSec := 0
  ThrottleSec := 0

/-- The zero value of `KubeArmorConfig`. -/
def KubeArmorConfig.zero : KubeArmorConfig where
  Spec := KubeArmorConfigSpec.zero
  Status := { Phase := "", Message := "" }

/-! ## The controller -/

/-- A loaded helm chart, as far as the controller looks at it. -/
structure Chart where
  Name : String
  Version : String
  deriving DecidableEq

/-- The struct `Controller` (the mutex has no content in a sequential model). -/
structure Controller where
  chartName : String
  releaseNamespace : String
  chart : Chart
  kaConfigValues : Fields
  nodeConfigValues : Fields
  deriving DecidableEq

/-- The controller built by `NewHelmController`: both values trees empty. -/
def NewHelmController (chartName releaseNamespace : String) (chart : Chart) : Controller where
  chartName := chartName
  releaseNamespace := releaseNamespace
  chart := chart
  kaConfigValues := .nil
  nodeConfigValues := .nil

/-- The statements of `UpdateHelmValuesFromKubeArmorConfig` that fill
`configMapValues` (`Values.kubearmorConfigMap`). -/
def configMapValues (spec : KubeArmorConfigSpec) : Fields :=
  let m : Fields := .nil
  let m := if spec.DefaultFilePosture ≠ "" then
    setKey "defaultFilePosture" (.str spec.DefaultFilePosture) m else m
  let m := if spec.DefaultCapabilitiesPosture ≠ "" then
    setKey "defaultCapabilitiesPosture" (.str spec.DefaultCapabilitiesPosture) m else m
  let m := if spec.DefaultNetworkPosture ≠ "" then
    setKey "defaultNetworkPosture" (.str spec.DefaultNetworkPosture) m else m
  let m := if spec.DefaultVisibility ≠ "" then
    setKey "visibility" (.str spec.DefaultVisibility) m else m
  let m := setKey "alertThrottling" (.str (FormatBool spec.AlertThrottling)) m
  let m := if spec.MaxAlertPerSec ≠ 0 then
    setKey "maxAlertPerSec" (.int spec.MaxAlertPerSec) m else m
  let m := if spec.ThrottleSec ≠ 0 then
    setKey "throttleSec" (.int spec.ThrottleSec) m else m
  m

/-- The statements that fill `relayTLS` (`Values.kubearmorRelay.tls`). -/
def relayTLSValues (tls : Tls) : Fields :=
  let m : Fields := .nil
  let m := if tls.RelayExtraDnsNames.length > 0 then
    setKey "extraDnsNames" (.strs tls.RelayExtraDnsNames) m else m
  let m := if tls.RelayExtraIpAddresses.length > 0 then
    setKey "extraIpAddresses" (.strs tls.RelayExtraIpAddresses) m else m
  m

/-- The statements that fill `relayImage` (`Values.kubearmorRelay.image`).
An index expression out of range is a run-time panic: `none`. -/
def relayImageValues (val : ImageSpec) : Option Fields :=
  let relayImage : Fields := .nil
  if !val.IsEmpty then
    if val.Image ≠ "" then
      let imageAndTag := Split val.Image ':'
      match imageAndTag[0]? with
      | none => none
      | some image =>
          let relayImage := setKey "repository" (.str image) relayImage
          if imageAndTag.length > 1 then
            match imageAndTag[1]? with
            | none => none
            | some tag => some (setKey "tag" (.str tag) relayImage)
          else some relayImage
    else some relayImage
  else some relayImage

/-- The statements that fill `relay` (`Values.kubearmorRelay`), given the
finished `relayTLS` and `relayImage` maps it refers to. -/
def relayValues (spec : KubeArmorConfigSpec) (relayImage : Fields) : Fields :=
  let relay : Fields := .nil
  let relay := setKey "tls" (.map (relayTLSValues spec.Tls)) relay
  let relay := setKey "image" (.map relayImage) relay
  let val := spec.KubeArmorRelayImage
  let relay := if !val.IsEmpty then
    (if val.ImagePullPolicy ≠ "" then
      setKey "imagePullPolicy" (.str val.ImagePullPolicy) relay else relay)
    else relay
  let relay := setKey "enableStdoutLogs" (.str (FormatBool spec.EnableStdOutLogs)) relay
  let relay := setKey "enableStdoutAlerts" (.str (FormatBool spec.EnableStdOutAlerts)) relay
  let relay := setKey "enableStdoutMsg" (.str (FormatBool spec.EnableStdOutMsgs)) relay
  relay

/-- The tree `kaConfigHelmValues` built by
`UpdateHelmValuesFromKubeArmorConfig`, given the finished `relayImage`. -/
def kaConfigHelmValues (spec : KubeArmorConfigSpec) (relayImage : Fields) : Fields :=
  let m : Fields := .nil
  let m := setKey "kubearmorConfigMap" (.map (configMapValues spec)) m
  let m := setKey "tls" (.map (setKey "enabled" (.bool spec.Tls.Enable) .nil)) m
  let m := setKey "kubearmorRelay" (.map (relayValues spec relayImage)) m
  m

/-- The method `Controller.UpdateHelmValuesFromKubeArmorConfig`.  The Go code
stores each nested map in its parent first and fills it afterwards through the
shared reference; here a nested map is filled first and stored finished.
`none` is a run-time panic. -/
def UpdateHelmValuesFromKubeArmorConfig (ctrl : Controller) (kaConfig : KubeArmorConfig) :
    Option Controller :=
  match relayImageValues kaConfig.Spec.KubeArmorRelayImage with
  | none => none
  | some relayImage =>
      some { ctrl with kaConfigValues := kaConfigHelmValues kaConfig.Spec relayImage }

/-- The method `Controller.UpdateNodeConfigHelmValues`. -/
def UpdateNodeConfigHelmValues (ctrl : Controller) (nodeConfig : MapList) : Controller :=
  { ctrl with nodeConfigValues := setKey "nodes" (.maps nodeConfig) .nil }

/-! ## The helm engine, as the controller sees it -/

/-- Go `error` values that reach the controller. -/
inductive GoError where
  /-- The sentinel `driver.ErrReleaseNotFound`. -/
  | ErrReleaseNotFound
  /-- An error built with `fmt.Errorf`, with its message. -/
  | errorf (msg : String)
  /-- Any other error returned by helm or the cluster, with its message. -/
  | other (msg : String)
  /-- A Kubernetes API status error with reason `NotFound`, with its message. -/
  | notFound (msg : String)
  deriving DecidableEq

/-- The method `Error()` of an error value. -/
def GoError.Error : GoError → String
  | .ErrReleaseNotFound => "release: not found"
  | .errorf msg => msg
  | .other msg => msg
  | .notFound msg => msg

/-- A helm release, as far as the controller looks at it: `Version` is the
revision, `Status` is `Info.Status`, `ChartVersion` is `Chart.Metadata.Version`
and `Config` is the values tree stored with the release. -/
structure Release where
  Name : String
  Namespace : String
  Version : Nat
  Status : String
  ChartVersion : String
  Config : Fields
  Manifest : String
  deriving DecidableEq

/-- Go `time.Second`, in nanoseconds. -/
def Second : Int := 1000000000

/-- Go `time.Minute`, in nanoseconds. -/
def Minute : Int := 60 * Second

/-- The fields of helm's `action.Install` that the controller sets. -/
structure Install where
  Namespace : String
  ReleaseName : String
  Wait : Bool
  Timeout : Int
  deriving DecidableEq

/-- The client returned by `action.NewInstall`: the fields at their zero value. -/
def NewInstall : Install :=
  { Namespace := "", ReleaseName := "", Wait := false, Timeout := 0 }

/-- The fields of helm's `action.Upgrade` that the controller sets. -/
structure Upgrade where
  Namespace : String
  ResetValues : Bool
  Wait : Bool
  Timeout : Int
  deriving DecidableEq

/-- The client returned by `action.NewUpgrade`: the fields at their zero value. -/
def NewUpgrade : Upgrade :=
  { Namespace := "", ResetValues := false, Wait := false, Timeout := 0 }

/-- A deployment call issued to helm. -/
inductive Call where
  /-- The call `installClient.Run(chart, vals)`. -/
  | install (client : Install) (chart : Chart) (vals : Fields)
  /-- The call `upgradeClient.RunWithContext(ctx, name, chart, vals)`. -/
  | upgrade (client : Upgrade) (name : String) (chart : Chart) (vals : Fields)
  deriving DecidableEq

/-- The helm engine behind `actionConfig`: what a history query with the given
release name and `Max` returns, and what an install or upgrade call returns. -/
structure Engine where
  History : String → Nat → List Release × Option GoError
  InstallRun : Install → Chart → Fields → Option Release × Option GoError
  UpgradeRun : Upgrade → String → Chart → Fields → Option Release × Option GoError

/-- How a call of a Go function ends. -/
inductive Outcome where
  /-- It returns `(release, err)`. -/
  | returned (release : Option Release) (err : Option GoError)
  /-- It panics (index out of range, nil dereference). -/
  | panicked
  deriving DecidableEq

/-- The error returned when the gate of `UpgradeRelease` is closed. -/
def notReadyError : GoError :=
  .errorf "either nodes are not processed or kubearmorconfig CR instance not present"

/-- The method `Controller.UpgradeRelease`: its outcome and the deployment
calls it issued, in order. -/
def UpgradeRelease (ctrl : Controller) (helm : Engine) : Outcome × List Call :=
  let (release, err) := helm.History ctrl.chartName 1
  let vals := mergeMaps ctrl.kaConfigValues ctrl.nodeConfigValues
  if ctrl.kaConfigValues.len < 1 ∨ ctrl.nodeConfigValues.len < 1 then
    (.returned none (some notReadyError), [])
  else if err = some .ErrReleaseNotFound then
    let installClient : Install :=
      { NewInstall with
        Namespace := ctrl.releaseNamespace
        ReleaseName := ctrl.chartName
        Wait := true
        Timeout := 5 * Minute }
    let (rel, e) := helm.InstallRun installClient ctrl.chart vals
    (.returned rel e, [.install installClient ctrl.chart vals])
  else
    match release[0]? with
    | none => (.panicked, [])
    | some latest =>
        if latest.Status ≠ "deployed" then
          (.returned none
            (some (.errorf ("previous release status is not deployed but " ++ latest.Status))), [])
        else
          let upgradeClient : Upgrade :=
            { NewUpgrade with
              ResetValues := true
              Wait := true
              Timeout := 5 * Minute
              Namespace := ctrl.releaseNamespace }
          let (rel, e) := helm.UpgradeRun upgradeClient ctrl.chartName ctrl.chart vals
          (.returned rel e, [.upgrade upgradeClient ctrl.chartName ctrl.chart vals])

/-! ## Semantic versions (the library `Masterminds/semver`) -/

/-- A parsed semantic version. -/
structure Version where
  major : Nat
  minor : Nat
  patch : Nat
  pre : String
  metadata : String
  deriving DecidableEq

/-- The value of a string of decimal digits. -/
def digitsValue (ds : List Char) : Nat :=
  ds.foldl (fun n c => 10 * n + (c.toNat - '0'.toNat)) 0

/-- Go `strconv.ParseUint(s, 10, 64)` on a string of digits. -/
def parseUint (ds : List Char) : Option Nat :=
  if ds = [] then none
  else if digitsValue ds < 2 ^ 64 then some (digitsValue ds) else none

/-- A character allowed in a pre-release or metadata identifier. -/
def isIdentChar (c : Char) : Bool :=
  c.isAlphanum || c = '-'

/-- The pattern `[0-9A-Za-z\-]+(\.[0-9A-Za-z\-]+)*`. -/
def isIdentList (cs : List Char) : Bool :=
  (splitChars '.' cs).all (fun part => part ≠ [] && part.all isIdentChar)

/-- The check `validatePrerelease`: a numeric identifier has no leading zero. -/
def validatePrerelease (cs : List Char) : Bool :=
  (splitChars '.' cs).all
    (fun part => !(part.all Char.isDigit && part.length > 1 && part.head? = some '0'))

/-- An optional group `(\.[0-9]+)?` of the version pattern: the number read
(0 when the group is absent) and the rest of the input. -/
def parseDotNumber (cs : List Char) : Option (Nat × List Char) :=
  match cs with
  | '.' :: rest =>
      match parseUint (rest.takeWhile Char.isDigit) with
      | none => none
      | some n => some (n, rest.dropWhile Char.isDigit)
  | _ => some (0, cs)

/-- The tail `(-pre)?(\+metadata)?` of the version pattern. -/
def parseSuffix (cs : List Char) : Option (List Char × List Char) :=
  let (pre, rest) : List Char × List Char :=
    match cs with
    | '-' :: r => (r.takeWhile (fun c => c ≠ '+'), r.dropWhile (fun c => c ≠ '+'))
    | _ => ([], cs)
  let preOk : Bool :=
    match cs with
    | '-' :: _ => isIdentList pre && validatePrerelease pre
    | _ => true
  match rest with
  | [] => if preOk then some (pre, []) else none
  | '+' :: build => if preOk && isIdentList build then some (pre, build) else none
  | _ => none

/-- The function `semver.NewVersion`: an optional `v`, one to three numbers
separated by dots, an optional pre-release and optional metadata.  `none` is
the nil pointer returned with an error. -/
def NewVersion (v : String) : Option Version :=
  let cs := match v.data with
    | 'v' :: rest => rest
    | other => other
  match parseUint (cs.takeWhile Char.isDigit) with
  | none => none
  | some major =>
      match parseDotNumber (cs.dropWhile Char.isDigit) with
      | none => none
      | some (minor, r1) =>
          match parseDotNumber r1 with
          | none => none
          | some (patch, r2) =>
              match parseSuffix r2 with
              | none => none
              | some (pre, build) =>
                  some { major := major, minor := minor, patch := patch,
                         pre := String.mk pre, metadata := String.mk build }

/-- The function `compareSegment` of the library. -/
def compareSegment (v o : Nat) : Int :=
  if v < o then -1 else if v > o then 1 else 0

/-- The method `Version.Compare`; `comparePrerelease` is the library's
comparison of two non-empty pre-release strings. -/
def Version.Compare (comparePrerelease : String → String → Int) (v o : Version) : Int :=
  if compareSegment v.major o.major ≠ 0 then compareSegment v.major o.major
  else if compareSegment v.minor o.minor ≠ 0 then compareSegment v.minor o.minor
  else if compareSegment v.patch o.patch ≠ 0 then compareSegment v.patch o.patch
  else if v.pre = "" ∧ o.pre = "" then 0
  else if v.pre = "" then 1
  else if o.pre = "" then -1
  else comparePrerelease v.pre o.pre

/-- The method `Version.Equal`. -/
def Version.Equal (cmp : String → String → Int) (v o : Version) : Bool :=
  decide (v.Compare cmp o = 0)

/-- The method `Version.LessThan`. -/
def Version.LessThan (cmp : String → String → Int) (v o : Version) : Bool :=
  decide (v.Compare cmp o < 0)

/-- The method `Version.GreaterThan`. -/
def Version.GreaterThan (cmp : String → String → Int) (v o : Version) : Bool :=
  decide (v.Compare cmp o > 0)

/-! ## The migration decision -/

/-- The loop of `checkIfCleanUpRequired` over the history entries.  `v138` and
`ver` are pointers: a version string that does not parse leaves a nil pointer,
and calling a comparison on it panics (`none`). -/
def cleanUpScan (cmp : String → String → Int) (v138 : Option Version) :
    List Release → Option Bool
  | [] => some false
  | rel :: rest =>
      match NewVersion rel.ChartVersion, v138 with
      | some ver, some v138 =>
          if ver.Equal cmp v138 then cleanUpScan cmp (some v138) rest
          else if ver.LessThan cmp v138 then some true
          else if ver.GreaterThan cmp v138 then some false
          else cleanUpScan cmp (some v138) rest
      | _, _ => none

/-- The function `checkIfCleanUpRequired`, reading the history of the release
`kubearmor-operator` with `Max = 10`; `none` is a run-time panic. -/
def checkIfCleanUpRequired (cmp : String → String → Int) (helm : Engine) : Option Bool :=
  let v138 := NewVersion "v1.3.8"
  let (release, err) := helm.History "kubearmor-operator" 10
  if err = some .ErrReleaseNotFound then some false
  else cleanUpScan cmp v138 release

/-! ## Sample inputs -/

/-- The version `v1.3.8` against which the history is compared. -/
def v138 : Version :=
  { major := 1, minor := 3, patch := 8, pre := "", metadata := "" }

/-- A configuration whose only set field is `DefaultFilePosture: "block"`. -/
def blockOnlyConfig : KubeArmorConfig :=
  { KubeArmorConfig.zero with
    Spec := { KubeArmorConfigSpec.zero with DefaultFilePosture := "block" } }

/-- The tree the specification gives for `blockOnlyConfig`. -/
def blockOnlyClaimed : Fields :=
  .cons "kubearmorConfigMap"
    (.map (.cons "defaultFilePosture" (.str "block")
      (.cons "alertThrottling" (.str "false") .nil))) .nil

/-- The tree the code builds for `blockOnlyConfig`. -/
def blockOnlyValues : Fields :=
  .cons "kubearmorConfigMap"
    (.map (.cons "defaultFilePosture" (.str "block")
      (.cons "alertThrottling" (.str "false") .nil)))
  (.cons "tls" (.map (.cons "enabled" (.bool false) .nil))
  (.cons "kubearmorRelay"
    (.map (.cons "tls" (.map .nil)
      (.cons "image" (.map .nil)
      (.cons "enableStdoutLogs" (.str "false")
      (.cons "enableStdoutAlerts" (.str "false")
      (.cons "enableStdoutMsg" (.str "false") .nil)))))) .nil))

/-- The configuration projected in `main.go`. -/
def mainConfig : KubeArmorConfig :=
  { KubeArmorConfig.zero with
    Spec := { KubeArmorConfigSpec.zero with
      DefaultFilePosture := "block"
      DefaultCapabilitiesPosture := "block"
      DefaultNetworkPosture := "block"
      DefaultVisibility := "process,file,network"
      KubeArmorRelayImage :=
        { Image := "kubearmor/kubearmor-relay-server:latest", ImagePullPolicy := "" }
      AlertThrottling := true } }

/-- A configuration with a relay image and nothing else. -/
def relayConfig (image : String) : KubeArmorConfig :=
  { KubeArmorConfig.zero with
    Spec := { KubeArmorConfigSpec.zero with
      KubeArmorRelayImage := { Image := image, ImagePullPolicy := "" } } }

/-- The first node record of `TestUpdateNodeConfigHelmValues`. -/
def nodeBpf : Fields :=
  .cons "config"
    (.map (.cons "enforcer" (.str "bpf")
      (.cons "runtime" (.str "cri-o")
      (.cons "runtimeSocket" (.str "run_crio_crio.sock")
      (.cons "btf" (.str "yes")
      (.cons "apparmorFs" (.str "yes")
      (.cons "seccomp" (.str "no") .nil))))))) .nil

/-- The second node record of `TestUpdateNodeConfigHelmValues`. -/
def nodeApparmor : Fields :=
  .cons "config"
    (.map (.cons "enforcer" (.str "apparmor")
      (.cons "runtime" (.str "containerd")
      (.cons "runtimeSocket" (.str "var_run_containerd_containerd.sock")
      (.cons "btf" (.str "no")
      (.cons "apparmorFs" (.str "yes")
      (.cons "seccomp" (.str "no") .nil))))))) .nil

/-- The controller of `main.go` right after `NewHelmController`. -/
def freshController : Controller :=
  NewHelmController "kubearmor" "kubearmor" { Name := "kubearmor", Version := "v1.3.8" }

/-- A controller whose two values trees have both been written. -/
def readyController : Controller :=
  { freshController with
    kaConfigValues := blockOnlyValues
    nodeConfigValues := .cons "nodes" (.maps (.cons nodeBpf .nil)) .nil }

/-- A release with the given status, chart version and stored values. -/
def sampleRelease (status chartVersion : String) (config : Fields) : Release :=
  { Name := "kubearmor", Namespace := "kubearmor", Version := 1, Status := status,
    ChartVersion := chartVersion, Config := config, Manifest := "" }

/-- An engine whose history query returns the given result, and whose install
and upgrade calls succeed with a release of revision 1. -/
def sampleEngine (history : List Release × Option GoError) : Engine where
  History := fun _ _ => history
  InstallRun := fun _ _ vals => (some (sampleRelease "deployed" "v1.3.8" vals), none)
  UpgradeRun := fun _ _ _ vals => (some (sampleRelease "deployed" "v1.3.8" vals), none)

/-- The variable `cfg` of `helm_test.go`: a controller at its zero value but
for one node record. -/
def cfg : Controller :=
  { chartName := "", releaseNamespace := "", chart := { Name := "", Version := "" },
    kaConfigValues := .nil,
    nodeConfigValues := .cons "nodes" (.maps (.cons nodeBpf .nil)) .nil }

/-- The value found by following a path of keys down a values tree. -/
def lookupPath : List String → Fields → Option Value
  | [], _ => none
  | [k], m => lookup k m
  | k :: k' :: ks, m =>
      match lookup k m with
      | some (.map sub) => lookupPath (k' :: ks) sub
      | _ => none

/-- The part of an image reference after its first colon. -/
def afterFirstColon (s : String) : String :=
  String.mk ((s.data.dropWhile (fun c => c ≠ ':')).drop 1)

/-- The part of an image reference before its first colon. -/
def beforeFirstColon (s : String) : String :=
  String.mk (s.data.takeWhile (fun c => c ≠ ':'))

/-- The part of an image reference between its first and its second colon
(or its end). -/
def secondPiece (s : String) : String :=
  String.mk (((s.data.dropWhile (fun c => c ≠ ':')).drop 1).takeWhile (fun c => c ≠ ':'))

/-! ## The cluster, as `Preinstall` sees it -/

/-- The function `errors.IsNotFound` of the Kubernetes API machinery. -/
def IsNotFound : GoError → Bool
  | .notFound _ => true
  | _ => false

/-- The struct `resource`. -/
structure resource where
  kind : String
  name : String
  group : String
  deriving DecidableEq

/-- The struct `schema.GroupVersionResource`. -/
structure GroupVersionResource where
  Group : String
  Version : String
  Resource : String
  deriving DecidableEq

/-- A delete issued through the dynamic client: the resource type, the
namespace and the object name. -/
structure DeleteCall where
  gvr : GroupVersionResource
  releaseNamespace : String
  name : String
  deriving DecidableEq

/-- The cluster and client libraries behind `Preinstall`.  `Init`,
`ToRESTConfig` and `NewForConfig` are the errors of the three set-up calls,
`cleanUpResources` is what the method of that name returns (it renders the
chart with helm and decodes the manifests), `RESTMapping` is the discovery
mapper (`none` is an error) and `Delete` and `ListNames` are the dynamic client;
both may answer according to the deletes issued before. -/
structure Cluster where
  Init : Option GoError
  ToRESTConfig : Option GoError
  NewForConfig : Option GoError
  cleanUpResources : Controller → List resource × Option GoError
  RESTMapping : String → String → Option GroupVersionResource
  Delete : List DeleteCall → DeleteCall → Option GoError
  ListNames : List DeleteCall → GroupVersionResource → String → String →
    List String × Option GoError

/-- How a call of `Preinstall` ends. -/
inductive ErrorOutcome where
  /-- It returns `err`. -/
  | returned (err : Option GoError)
  /-- The process exits in `log.Fatalf`. -/
  | exited
  /-- It panics. -/
  | panicked
  deriving DecidableEq

/-- The variable `dsGvr` of `Preinstall`. -/
def dsGvr : GroupVersionResource :=
  { Group := "apps", Version := "v1", Resource := "daemonsets" }

/-- The variable `depGvr` of `Preinstall`. -/
def depGvr : GroupVersionResource :=
  { Group := "apps", Version := "v1", Resource := "deployments" }

/-- The loop of `Preinstall` over the enumerated resources, started after the
deletes `done`: the error to return, if any, and the deletes issued so far. -/
def deleteResources (cl : Cluster) (ns : String) :
    List resource → List DeleteCall → Option GoError × List DeleteCall
  | [], done => (none, done)
  | r :: rest, done =>
      match cl.RESTMapping r.group r.kind with
      | none => deleteResources cl ns rest done
      | some mapping =>
          let call : DeleteCall := { gvr := mapping, releaseNamespace := ns, name := r.name }
          match cl.Delete done call with
          | none => deleteResources cl ns rest (done ++ [call])
          | some err =>
              if !IsNotFound err then
                (some (.errorf ("failed to delete " ++ r.kind ++ " " ++ r.name ++ ": " ++
                  err.Error)), done ++ [call])
              else deleteResources cl ns rest (done ++ [call])

/-- The loop of `Preinstall` over the listed DaemonSets. -/
def deleteDaemonSets (cl : Cluster) (ns : String) :
    List String → List DeleteCall → Option GoError × List DeleteCall
  | [], done => (none, done)
  | ds :: rest, done =>
      let call : DeleteCall := { gvr := dsGvr, releaseNamespace := ns, name := ds }
      match cl.Delete done call with
      | none => deleteDaemonSets cl ns rest (done ++ [call])
      | some err => (some err, done ++ [call])

/-- The method `Controller.Preinstall`: how it ends and the deletes it issued,
in order. -/
def Preinstall (cmp : String → String → Int) (ctrl : Controller) (helm : Engine)
    (cl : Cluster) : ErrorOutcome × List DeleteCall :=
  match cl.Init with
  | some _ => (.exited, [])
  | none =>
  match cl.ToRESTConfig with
  | some err => (.returned (some err), [])
  | none =>
  match checkIfCleanUpRequired cmp helm with
  | none => (.panicked, [])
  | some false => (.returned none, [])
  | some true =>
  match cl.NewForConfig with
  | some err => (.returned (some err), [])
  | none =>
  match deleteResources cl ctrl.releaseNamespace (cl.cleanUpResources ctrl).1 [] with
  | (some err, done) => (.returned (some err), done)
  | (none, done) =>
  match cl.ListNames done dsGvr ctrl.releaseNamespace "kubearmor-app=kubearmor" with
  | (_, some err) => (.returned (some err), done)
  | (daemonSets, none) =>
  match deleteDaemonSets cl ctrl.releaseNamespace daemonSets done with
  | (some err, done) => (.returned (some err), done)
  | (none, done) =>
      let call : DeleteCall :=
        { gvr := depGvr, releaseNamespace := ctrl.releaseNamespace,
          name := "kubearmor-controller" }
      match cl.Delete done call with
      | none => (.returned none, done ++ [call])
      | some err =>
          if !IsNotFound err then
            (.returned (some (.errorf ("failed to delete deployment kubearmor-controller " ++
              err.Error))), done ++ [call])
          else (.returned none, done ++ [call])

/-! ## The reconciler (`internal/controller/kubearmorconfig_controller.go`) -/

/-- Whether `sub` occurs in the character sequence. -/
def containsChars (sub : List Char) : List Char → Bool
  | [] => sub.isPrefixOf []
  | c :: cs => sub.isPrefixOf (c :: cs) || containsChars sub cs

/-- Go `strings.Contains(s, substr)`. -/
def Contains (s substr : String) : Bool :=
  containsChars substr.data s.data

/-- The struct `ctrl.Result` of controller-runtime. -/
structure Result where
  Requeue : Bool
  RequeueAfter : Int
  deriving DecidableEq

/-- The zero value `ctrl.Result{}`. -/
def Result.zero : Result := { Requeue := false, RequeueAfter := 0 }

/-- How a call of `Reconcile` ends. -/
inductive ReconcileOutcome where
  /-- It returns `(result, err)`. -/
  | returned (result : Result) (err : Option GoError)
  /-- It panics. -/
  | panicked
  deriving DecidableEq

/-- The function `client.IgnoreNotFound`. -/
def IgnoreNotFound (err : GoError) : Option GoError :=
  if IsNotFound err then none else some err

/-- The text by which `Reconcile` recognizes the not-ready error. -/
def notReadyMarker : String := "nodes are not processed or kubearmorconfig"

/-- The method `KubeArmorConfigReconciler.Reconcile`, given what `r.Get`
answers: how it ends, the helm controller afterwards and the deployment calls
issued.  After a successful upgrade the code reads `release.Name`, so a nil
release panics. -/
def Reconcile (ctrl : Controller) (helm : Engine) (get : Except GoError KubeArmorConfig) :
    ReconcileOutcome × Controller × List Call :=
  match get with
  | .error err => (.returned Result.zero (IgnoreNotFound err), ctrl, [])
  | .ok config =>
      match UpdateHelmValuesFromKubeArmorConfig ctrl config with
      | none => (.panicked, ctrl, [])
      | some ctrl' =>
          match UpgradeRelease ctrl' helm with
          | (.panicked, calls) => (.panicked, ctrl', calls)
          | (.returned release err, calls) =>
              match err with
              | some err =>
                  if Contains err.Error notReadyMarker then
                    (.returned { Result.zero with RequeueAfter := 1 * Minute } none, ctrl', calls)
                  else (.returned Result.zero (some err), ctrl', calls)
              | none =>
                  match release with
                  | none => (.panicked, ctrl', calls)
                  | some _ => (.returned Result.zero none, ctrl', calls)

/-! ## More sample inputs -/

/-- Appending the entries of one map to another. -/
def Fields.append : Fields → Fields → Fields
  | .nil, b => b
  | .cons k v rest, b => .cons k v (rest.append b)

/-- A cluster whose set-up calls succeed, with the given enumerated resources,
mapper and delete answers, and the given DaemonSet names. -/
def sampleCluster (resources : List resource)
    (mapping : String → String → Option GroupVersionResource)
    (delete : List DeleteCall → DeleteCall → Option GoError)
    (daemonSets : List String) : Cluster where
  Init := none
  ToRESTConfig := none
  NewForConfig := none
  cleanUpResources := fun _ => (resources, none)
  RESTMapping := mapping
  Delete := delete
  ListNames := fun _ _ _ _ => (daemonSets, none)

/-- A ConfigMap, a custom resource of a kind the cluster does not know, and a
Service, as a dry-run render may enumerate them. -/
def sampleResources : List resource :=
  [{ kind := "ConfigMap", name := "kubearmor-config", group := "" },
   { kind := "KubeArmorPolicy", name := "ksp", group := "security.kubearmor.com" },
   { kind := "Service", name := "kubearmor", group := "" }]

/-- A mapper that knows ConfigMaps and Services only. -/
def sampleMapping (group kind : String) : Option GroupVersionResource :=
  if group = "" ∧ kind = "ConfigMap" then
    some { Group := "", Version := "v1", Resource := "configmaps" }
  else if group = "" ∧ kind = "Service" then
    some { Group := "", Version := "v1", Resource := "services" }
  else none

/-- Delete answers: the ConfigMap is not found, the Service delete is
forbidden, any other delete succeeds. -/
def sampleDelete (_done : List DeleteCall) (call : DeleteCall) : Option GoError :=
  if call.gvr.Resource = "configmaps" then some (.notFound "configmaps not found")
  else if call.gvr.Resource = "services" then some (.other "forbidden")
  else none

/-- The statuses of a helm release other than `deployed`. -/
def helmStatuses : List String :=
  ["unknown", "uninstalled", "superseded", "failed", "uninstalling",
   "pending-install", "pending-upgrade", "pending-rollback"]

end Helm

/-! # Theorems -/

namespace Helm

/-! ## Reading and writing maps -/

theorem lookup_setKey (k k' : String) (v : Value) :
    ∀ m : Fields, lookup k' (setKey k v m) = if k = k' then some v else lookup k' m
  | .nil => by simp [setKey, lookup]
  | .cons k0 v0 rest => by
      have ih := lookup_setKey k k' v rest
      by_cases h0 : k0 = k
      · subst h0
        by_cases h1 : k0 = k' <;> simp [setKey, lookup, h1]
      · by_cases h1 : k0 = k'
        · subst h1
          have : ¬ k = k0 := fun h => h0 h.symm
          simp [setKey, lookup, h0, this]
        · simp [setKey, lookup, h0, h1, ih]

theorem lookup_eq_none_of_not_mem (k : String) :
    ∀ m : Fields, k ∉ m.keys → lookup k m = none
  | .nil, _ => rfl
  | .cons k0 v0 rest, h => by
      simp [Fields.keys] at h
      have ih := lookup_eq_none_of_not_mem k rest h.2
      have : ¬ k0 = k := fun e => h.1 e.symm
      simp [lookup, this, ih]

theorem len_eq_zero_iff (m : Fields) : m.len = 0 ↔ m = .nil := by
  cases m <;> simp [Fields.len]

/-! ## mergeMaps -/

theorem lookup_copyLoop (k : String) :
    ∀ a out : Fields, a.nodupKeys →
      lookup k (copyLoop a out) = (lookup k a).orElse (fun _ => lookup k out)
  | .nil, out, _ => by simp [copyLoop, lookup]
  | .cons k0 v0 rest, out, h => by
      have hn : k0 ∉ rest.keys ∧ rest.nodupKeys := by
        simpa [Fields.nodupKeys, Fields.keys] using h
      have ih := lookup_copyLoop k rest (setKey k0 v0 out) hn.2
      rw [copyLoop, ih, lookup_setKey]
      by_cases h0 : k0 = k
      · subst h0
        simp [lookup, lookup_eq_none_of_not_mem _ _ hn.1]
      · simp [lookup, h0]

theorem lookup_copyLoop_nil (k : String) (a : Fields) (h : a.nodupKeys) :
    lookup k (copyLoop a .nil) = lookup k a := by
  rw [lookup_copyLoop k a .nil h]
  cases lookup k a <;> simp [lookup]

/-- What the overlay loop of `mergeMaps` leaves at key `k`. -/
theorem lookup_mergeLoop (k : String) :
    ∀ b out : Fields, b.nodupKeys →
      lookup k (mergeLoop b out) =
        match lookup k b with
        | some (.map v) =>
            (match lookup k out with
             | some (.map bv) => some (.map (mergeLoop v (copyLoop bv .nil)))
             | _ => some (.map v))
        | some v => some v
        | none => lookup k out
  | .nil, out, _ => by simp [mergeLoop, lookup]
  | .cons k0 v0 rest, out, h => by
      have hn : k0 ∉ rest.keys ∧ rest.nodupKeys := by
        simpa [Fields.nodupKeys, Fields.keys] using h
      by_cases h0 : k0 = k
      · subst h0
        have hr := lookup_eq_none_of_not_mem _ _ hn.1
        cases v0 with
        | map v =>
            rw [mergeLoop]
            split
            · rename_i bv hbv
              rw [lookup_mergeLoop k0 rest _ hn.2, hr]
              simp [lookup, lookup_setKey, hbv]
            · rename_i hbv
              rw [lookup_mergeLoop k0 rest _ hn.2, hr]
              simp only [lookup, lookup_setKey, if_true]
        | _ =>
            simp only [mergeLoop]
            rw [lookup_mergeLoop k0 rest _ hn.2, hr]
            simp [lookup, lookup_setKey]
      · cases v0 with
        | map v =>
            rw [mergeLoop]
            split
            · rw [lookup_mergeLoop k rest _ hn.2]
              simp [lookup, lookup_setKey, h0]
            · rw [lookup_mergeLoop k rest _ hn.2]
              simp [lookup, lookup_setKey, h0]
        | _ =>
            simp only [mergeLoop]
            rw [lookup_mergeLoop k rest _ hn.2]
            simp [lookup, lookup_setKey, h0]

/-- The merged tree read at a key is the reference deep merge at that key. -/
theorem lookup_mergeMaps (a b : Fields) (ha : a.nodupKeys) (hb : b.nodupKeys) (k : String) :
    lookup k (mergeMaps a b) = mergeAt a b k := by
  unfold mergeMaps mergeAt
  rw [lookup_mergeLoop k b _ hb, lookup_copyLoop_nil k a ha]
  rfl

/-- C1: for maps `a` and `b` (no key twice), `mergeMaps a b` is the reference
deep merge: at a key of `b` where both sides hold a map it holds the merge of
the two maps; at any other key of `b` it holds the value of `b` whole (a list
or scalar replaces, a map replaces a non-map and a non-map replaces a map); at
a key that `b` lacks it holds what `a` holds, so a key of neither is a key of
the result. -/
theorem mergeMaps_reference (a b : Fields) (ha : a.nodupKeys) (hb : b.nodupKeys) :
    (∀ k bv v, lookup k a = some (.map bv) → lookup k b = some (.map v) →
        lookup k (mergeMaps a b) = some (.map (mergeMaps bv v))) ∧
    (∀ k v, lookup k b = some v →
        (¬ ∃ bv w, lookup k a = some (.map bv) ∧ v = .map w) →
        lookup k (mergeMaps a b) = some v) ∧
    (∀ k, lookup k b = none → lookup k (mergeMaps a b) = lookup k a) ∧
    (∀ k, lookup k a = none → lookup k b = none → lookup k (mergeMaps a b) = none) := by
  refine ⟨?_, ?_, ?_, ?_⟩
  · intro k bv v h1 h2
    rw [lookup_mergeMaps a b ha hb, mergeAt, h2]
    simp only [h1]
  · intro k v h1 h2
    rw [lookup_mergeMaps a b ha hb, mergeAt, h1]
    cases v with
    | map w =>
        simp only
        split
        · rename_i bv hbv
          exact absurd ⟨bv, w, hbv, rfl⟩ h2
        · rfl
    | _ => rfl
  · intro k h
    rw [lookup_mergeMaps a b ha hb, mergeAt, h]
  · intro k h1 h2
    rw [lookup_mergeMaps a b ha hb, mergeAt, h2, h1]

/-- C1, on the trees of the specification and of `TestMergeMaps`. -/
theorem mergeMaps_reference_witness :
    sampleBase.nodupKeys ∧ sampleOverlay.nodupKeys ∧
    lookup "b" (mergeMaps sampleBase sampleOverlay) =
      some (.map (mergeMaps (.cons "x" (.int 1) .nil) (.cons "y" (.int 2) .nil))) ∧
    lookup "a" (mergeMaps sampleBase sampleOverlay) = some (.int 1) ∧
    mergeMaps sampleBase sampleOverlay = sampleMerged ∧
    mergeMaps (.cons "a" (.int 1) .nil) (.cons "a" (.int 2) .nil) = .cons "a" (.int 2) .nil ∧
    lookup "image" (mergeMaps originalMap updatedMap) =
      some (.map (.cons "repository" (.str "kubearmor/kubearmor")
        (.cons "tag" (.str "stable") .nil))) :=
  ⟨by decide, by decide,
   (mergeMaps_reference sampleBase sampleOverlay (by decide) (by decide)).1
      "b" _ _ (by decide) (by decide),
   ((mergeMaps_reference sampleBase sampleOverlay (by decide) (by decide)).2.2.1
      "a" (by decide)).trans (by decide),
   by decide, by decide, by decide⟩


/-! ## The release driver -/

theorem not_len_lt_one (m : Fields) (h : m ≠ .nil) : ¬ m.len < 1 := by
  cases m with
  | nil => exact absurd rfl h
  | cons k v rest => simp [Fields.len]

/-- C2: when `kaConfigValues` or `nodeConfigValues` is empty, `UpgradeRelease`
returns the not-ready error and issues no install and no upgrade call,
whatever the history query answers. -/
theorem UpgradeRelease_gate (ctrl : Controller) (helm : Engine)
    (h : ctrl.kaConfigValues = .nil ∨ ctrl.nodeConfigValues = .nil) :
    UpgradeRelease ctrl helm = (.returned none (some notReadyError), []) := by
  have hlen : ctrl.kaConfigValues.len < 1 ∨ ctrl.nodeConfigValues.len < 1 := by
    rcases h with h | h
    · left; rw [h]; decide
    · right; rw [h]; decide
  unfold UpgradeRelease
  simp only [hlen, if_true]

/-- C2, on fresh controllers on which only one of the two update operations
has been called, with and without a previous release. -/
theorem UpgradeRelease_gate_witness :
    ((UpdateNodeConfigHelmValues freshController (.cons nodeBpf .nil)).kaConfigValues = .nil ∨
      (UpdateNodeConfigHelmValues freshController (.cons nodeBpf .nil)).nodeConfigValues = .nil) ∧
    UpgradeRelease (UpdateNodeConfigHelmValues freshController (.cons nodeBpf .nil))
        (sampleEngine ([], some .ErrReleaseNotFound)) =
      (.returned none (some notReadyError), []) ∧
    (UpdateHelmValuesFromKubeArmorConfig freshController mainConfig).map
        (fun c => UpgradeRelease c (sampleEngine ([sampleRelease "deployed" "v1.3.8" .nil], none))) =
      some (.returned none (some notReadyError), []) :=
  ⟨by decide,
   UpgradeRelease_gate _ _ (by decide),
   by
     have h := UpgradeRelease_gate
       { freshController with
         kaConfigValues := (kaConfigHelmValues mainConfig.Spec
           (.cons "repository" (.str "kubearmor/kubearmor-relay-server")
             (.cons "tag" (.str "latest") .nil))) }
       (sampleEngine ([sampleRelease "deployed" "v1.3.8" .nil], none)) (Or.inr rfl)
     rw [← h]
     decide⟩

/-- C3: with both trees non-empty, a history query that reports
`ErrReleaseNotFound` leads to exactly one install call, with wait enabled, a
timeout of five minutes and the values `mergeMaps kaConfigValues
nodeConfigValues`, and to no upgrade call; a query whose latest release has
status `deployed` leads to exactly one upgrade call, with `ResetValues`, wait,
the same timeout and the same values, and to no install call.  The values
passed are a function of the two trees of the controller alone.  In both cases
`UpgradeRelease` returns what the call returned. -/
theorem UpgradeRelease_decision (ctrl : Controller) (helm : Engine)
    (hka : ctrl.kaConfigValues ≠ .nil) (hnode : ctrl.nodeConfigValues ≠ .nil) :
    (∀ hist, helm.History ctrl.chartName 1 = (hist, some .ErrReleaseNotFound) →
      (UpgradeRelease ctrl helm).2 =
        [Call.install
          { Namespace := ctrl.releaseNamespace, ReleaseName := ctrl.chartName,
            Wait := true, Timeout := 5 * Minute }
          ctrl.chart (mergeMaps ctrl.kaConfigValues ctrl.nodeConfigValues)] ∧
      (UpgradeRelease ctrl helm).1 =
        Outcome.returned
          (helm.InstallRun
            { Namespace := ctrl.releaseNamespace, ReleaseName := ctrl.chartName,
              Wait := true, Timeout := 5 * Minute }
            ctrl.chart (mergeMaps ctrl.kaConfigValues ctrl.nodeConfigValues)).1
          (helm.InstallRun
            { Namespace := ctrl.releaseNamespace, ReleaseName := ctrl.chartName,
              Wait := true, Timeout := 5 * Minute }
            ctrl.chart (mergeMaps ctrl.kaConfigValues ctrl.nodeConfigValues)).2) ∧
    (∀ latest rest err, helm.History ctrl.chartName 1 = (latest :: rest, err) →
      err ≠ some .ErrReleaseNotFound → latest.Status = "deployed" →
      (UpgradeRelease ctrl helm).2 =
        [Call.upgrade
          { Namespace := ctrl.releaseNamespace, ResetValues := true,
            Wait := true, Timeout := 5 * Minute }
          ctrl.chartName ctrl.chart (mergeMaps ctrl.kaConfigValues ctrl.nodeConfigValues)] ∧
      (UpgradeRelease ctrl helm).1 =
        Outcome.returned
          (helm.UpgradeRun
            { Namespace := ctrl.releaseNamespace, ResetValues := true,
              Wait := true, Timeout := 5 * Minute }
            ctrl.chartName ctrl.chart (mergeMaps ctrl.kaConfigValues ctrl.nodeConfigValues)).1
          (helm.UpgradeRun
            { Namespace := ctrl.releaseNamespace, ResetValues := true,
              Wait := true, Timeout := 5 * Minute }
            ctrl.chartName ctrl.chart (mergeMaps ctrl.kaConfigValues ctrl.nodeConfigValues)).2) ∧
    5 * Minute = 300 * Second := by
  have hgate : ¬ (ctrl.kaConfigValues.len < 1 ∨ ctrl.nodeConfigValues.len < 1) := by
    intro h
    rcases h with h | h
    · exact not_len_lt_one _ hka h
    · exact not_len_lt_one _ hnode h
  refine ⟨?_, ?_, by decide⟩
  · intro hist hq
    unfold UpgradeRelease
    simp only [hq, hgate, if_false, if_true, NewInstall]
    exact ⟨trivial, trivial⟩
  · intro latest rest err hq herr hst
    unfold UpgradeRelease
    simp only [hq, hgate, herr, if_false, NewUpgrade, List.getElem?_cons_zero, hst,
      ne_eq, not_true_eq_false]
    exact ⟨trivial, trivial⟩

/-- C3, on a ready controller: without a release the call is one install; with
a deployed release it is one upgrade, and the values stored in that release
(here `sampleBase`) do not reach the call. -/
theorem UpgradeRelease_decision_witness :
    readyController.kaConfigValues ≠ .nil ∧ readyController.nodeConfigValues ≠ .nil ∧
    (UpgradeRelease readyController (sampleEngine ([], some .ErrReleaseNotFound))).2 =
      [Call.install
        { Namespace := "kubearmor", ReleaseName := "kubearmor", Wait := true,
          Timeout := 300000000000 }
        { Name := "kubearmor", Version := "v1.3.8" }
        (mergeMaps blockOnlyValues (.cons "nodes" (.maps (.cons nodeBpf .nil)) .nil))] ∧
    (UpgradeRelease readyController
        (sampleEngine ([sampleRelease "deployed" "v1.3.8" sampleBase], none))).2 =
      [Call.upgrade
        { Namespace := "kubearmor", ResetValues := true, Wait := true,
          Timeout := 300000000000 }
        "kubearmor" { Name := "kubearmor", Version := "v1.3.8" }
        (mergeMaps blockOnlyValues (.cons "nodes" (.maps (.cons nodeBpf .nil)) .nil))] :=
  ⟨by decide, by decide,
   ((UpgradeRelease_decision readyController (sampleEngine ([], some .ErrReleaseNotFound))
      (by decide) (by decide)).1 [] rfl).1,
   ((UpgradeRelease_decision readyController
      (sampleEngine ([sampleRelease "deployed" "v1.3.8" sampleBase], none))
      (by decide) (by decide)).2.1 _ _ _ rfl (by decide) rfl).1⟩

/-- C4: with both trees non-empty, a history whose latest release has a status
other than `deployed` makes `UpgradeRelease` return an error whose message ends
with that status, and no install and no upgrade call is issued. -/
theorem UpgradeRelease_unexpected_status (ctrl : Controller) (helm : Engine)
    (latest : Release) (rest : List Release) (err : Option GoError)
    (hka : ctrl.kaConfigValues ≠ .nil) (hnode : ctrl.nodeConfigValues ≠ .nil)
    (hq : helm.History ctrl.chartName 1 = (latest :: rest, err))
    (herr : err ≠ some .ErrReleaseNotFound)
    (hst : latest.Status ≠ "deployed") :
    ∃ e : GoError,
      UpgradeRelease ctrl helm = (.returned none (some e), []) ∧
      e.Error = "previous release status is not deployed but " ++ latest.Status := by
  have hgate : ¬ (ctrl.kaConfigValues.len < 1 ∨ ctrl.nodeConfigValues.len < 1) := by
    intro h
    rcases h with h | h
    · exact not_len_lt_one _ hka h
    · exact not_len_lt_one _ hnode h
  refine ⟨.errorf ("previous release status is not deployed but " ++ latest.Status), ?_, rfl⟩
  unfold UpgradeRelease
  simp only [hq, hgate, herr, if_false, List.getElem?_cons_zero, ne_eq, hst,
    not_false_eq_true, if_true]

/-- C4, on a ready controller whose latest release has status `failed`. -/
theorem UpgradeRelease_unexpected_status_witness :
    readyController.kaConfigValues ≠ .nil ∧ readyController.nodeConfigValues ≠ .nil ∧
    ∃ e : GoError,
      UpgradeRelease readyController
          (sampleEngine ([sampleRelease "failed" "v1.3.8" .nil], none)) =
        (.returned none (some e), []) ∧
      e.Error = "previous release status is not deployed but " ++ "failed" :=
  ⟨by decide, by decide,
   UpgradeRelease_unexpected_status readyController
      (sampleEngine ([sampleRelease "failed" "v1.3.8" .nil], none))
      (sampleRelease "failed" "v1.3.8" .nil) [] none
      (by decide) (by decide) rfl (by decide) (by decide)⟩


/-! ## The migration decision -/

theorem NewVersion_v138 : NewVersion "v1.3.8" = some v138 := by decide

/-- A version that is neither equal to nor less than another is greater. -/
theorem greaterThan_of_not (cmp : String → String → Int) (v o : Version)
    (he : v.Equal cmp o = false) (hl : v.LessThan cmp o = false) :
    v.GreaterThan cmp o = true := by
  simp only [Version.Equal, Version.LessThan, Version.GreaterThan, decide_eq_false_iff_not,
    decide_eq_true_eq] at *
  omega

/-- The scan decides by the first version that is not equal to `v1.3.8`. -/
theorem cleanUpScan_eq (cmp : String → String → Int) :
    ∀ (hist : List Release) (vers : List Version),
      hist.map (fun r => NewVersion r.ChartVersion) = vers.map some →
      cleanUpScan cmp (some v138) hist =
        some (match vers.find? (fun v => !(v.Equal cmp v138)) with
              | some v => v.LessThan cmp v138
              | none => false)
  | [], vers, h => by
      cases vers with
      | nil => rfl
      | cons v vs => simp at h
  | rel :: rest, vers, h => by
      cases vers with
      | nil => simp at h
      | cons v vs =>
          simp only [List.map_cons, List.cons.injEq] at h
          have ih := cleanUpScan_eq cmp rest vs h.2
          simp only [cleanUpScan, h.1]
          by_cases he : v.Equal cmp v138 = true
          · simp [he, ih, List.find?]
          · have he' : v.Equal cmp v138 = false := by simpa using he
            by_cases hl : v.LessThan cmp v138 = true
            · simp [he', hl, List.find?]
            · have hl' : v.LessThan cmp v138 = false := by simpa using hl
              have hg := greaterThan_of_not cmp v v138 he' hl'
              simp [he', hl', hg, List.find?]

/-- C5: for a history whose chart versions all parse, `checkIfCleanUpRequired`
returns, and it returns true exactly when some entry has a version that is not
equal to v1.3.8 and the first such entry, in the order returned, is less than
v1.3.8.  So it returns false for the empty history, for a history of v1.3.8
entries only, and when the first differing entry is greater. -/
theorem checkIfCleanUpRequired_decision (cmp : String → String → Int) (helm : Engine)
    (hist : List Release) (err : Option GoError) (vers : List Version)
    (hq : helm.History "kubearmor-operator" 10 = (hist, err))
    (herr : err ≠ some .ErrReleaseNotFound)
    (hparse : hist.map (fun r => NewVersion r.ChartVersion) = vers.map some) :
    ∃ d : Bool, checkIfCleanUpRequired cmp helm = some d ∧
      (d = true ↔
        ∃ v, vers.find? (fun v => !(v.Equal cmp v138)) = some v ∧
          v.LessThan cmp v138 = true) ∧
      (vers = [] → d = false) ∧
      ((∀ v ∈ vers, v.Equal cmp v138 = true) → d = false) ∧
      (∀ v, vers.find? (fun v => !(v.Equal cmp v138)) = some v →
          v.GreaterThan cmp v138 = true → d = false) := by
  have hrun : checkIfCleanUpRequired cmp helm =
      some (match vers.find? (fun v => !(v.Equal cmp v138)) with
            | some v => v.LessThan cmp v138
            | none => false) := by
    unfold checkIfCleanUpRequired
    simp only [hq, herr, if_false, NewVersion_v138]
    exact cleanUpScan_eq cmp hist vers hparse
  refine ⟨_, hrun, ?_, ?_, ?_, ?_⟩
  · constructor
    · intro hd
      split at hd
      · rename_i v hv
        exact ⟨v, hv, hd⟩
      · cases hd
    · rintro ⟨v, hv, hl⟩
      simp only [hv, hl]
  · intro hnil
    subst hnil
    rfl
  · intro hall
    have : vers.find? (fun v => !(v.Equal cmp v138)) = none := by
      rw [List.find?_eq_none]
      intro v hv
      simp [hall v hv]
    simp only [this]
  · intro v hv hg
    simp only [hv]
    simp only [Version.LessThan, Version.GreaterThan, decide_eq_true_eq,
      decide_eq_false_iff_not] at *
    omega

/-- C5, on the three histories of the specification and on the versions of
`TestSemver`. -/
theorem checkIfCleanUpRequired_decision_witness :
    checkIfCleanUpRequired (fun _ _ => 0)
      (sampleEngine ([sampleRelease "deployed" "v1.3.9" .nil], none)) = some false ∧
    checkIfCleanUpRequired (fun _ _ => 0)
      (sampleEngine ([sampleRelease "deployed" "v1.3.7" .nil], none)) = some true ∧
    checkIfCleanUpRequired (fun _ _ => 0)
      (sampleEngine ([sampleRelease "deployed" "v1.3.8" .nil], none)) = some false ∧
    (NewVersion "v1.3.4").map (fun v => v.LessThan (fun _ _ => 0) v138) = some true ∧
    ∃ d : Bool,
      checkIfCleanUpRequired (fun _ _ => 0)
        (sampleEngine ([sampleRelease "deployed" "v1.3.8" .nil,
          sampleRelease "superseded" "v1.3.7" .nil], none)) = some d ∧
      (d = true ↔
        ∃ v, [v138, { v138 with patch := 7 }].find?
            (fun v => !(v.Equal (fun _ _ => 0) v138)) = some v ∧
          v.LessThan (fun _ _ => 0) v138 = true) :=
  ⟨by decide, by decide, by decide, by decide,
   (checkIfCleanUpRequired_decision (fun _ _ => 0)
      (sampleEngine ([sampleRelease "deployed" "v1.3.8" .nil,
        sampleRelease "superseded" "v1.3.7" .nil], none))
      [sampleRelease "deployed" "v1.3.8" .nil, sampleRelease "superseded" "v1.3.7" .nil]
      none [v138, { v138 with patch := 7 }] rfl (by decide) (by decide)).imp
     (fun _ h => ⟨h.1, h.2.1⟩)⟩


/-! ## Splitting an image reference -/

theorem splitChars_ne_nil (sep : Char) : ∀ cs : List Char, splitChars sep cs ≠ []
  | [] => by simp [splitChars]
  | c :: cs => by
      have ih := splitChars_ne_nil sep cs
      unfold splitChars
      split
      · simp
      · split <;> simp

/-- The pieces of a split: what precedes the first separator, then the split
of what follows it. -/
theorem splitChars_eq (sep : Char) :
    ∀ cs : List Char, splitChars sep cs =
      cs.takeWhile (fun c => c ≠ sep) ::
        (match cs.dropWhile (fun c => c ≠ sep) with
         | [] => []
         | _ :: rest => splitChars sep rest)
  | [] => by simp [splitChars]
  | c :: cs => by
      have ih := splitChars_eq sep cs
      by_cases h : c = sep
      · subst h
        simp [splitChars, List.takeWhile, List.dropWhile]
      · rw [splitChars, if_neg h, ih]
        simp [List.takeWhile, List.dropWhile, h]

theorem relayImageValues_isSome (val : ImageSpec) :
    ∃ relayImage, relayImageValues val = some relayImage := by
  unfold relayImageValues
  simp only []
  split
  · split
    · have hne := splitChars_ne_nil ':' val.Image.data
      unfold Split
      cases hs : splitChars ':' val.Image.data with
      | nil => exact absurd hs hne
      | cons p ps =>
          cases ps with
          | nil => simp
          | cons q qs => simp
    · exact ⟨_, rfl⟩
  · exact ⟨_, rfl⟩


theorem dropWhile_ne_eq_nil_iff (sep : Char) (cs : List Char) :
    cs.dropWhile (fun c => c ≠ sep) = [] ↔ sep ∉ cs := by
  rw [List.dropWhile_eq_nil_iff]
  constructor
  · intro H hm
    have := H sep hm
    simp at this
  · intro H x hx
    have : x ≠ sep := fun e => H (e ▸ hx)
    simpa using this

theorem takeWhile_ne_eq_self (sep : Char) (cs : List Char) (h : sep ∉ cs) :
    cs.takeWhile (fun c => c ≠ sep) = cs := by
  rw [List.takeWhile_eq_self_iff]
  intro x hx
  have : x ≠ sep := fun e => h (e ▸ hx)
  simpa using this

/-- The map `relayImage` in closed form. -/
theorem relayImageValues_eq (val : ImageSpec) :
    relayImageValues val = some
      (if val.Image = "" then .nil
       else if ':' ∈ val.Image.data then
         .cons "repository" (.str (beforeFirstColon val.Image))
           (.cons "tag" (.str (secondPiece val.Image)) .nil)
       else .cons "repository" (.str val.Image) .nil) := by
  unfold relayImageValues
  simp only []
  by_cases hempty : val.IsEmpty = true
  · have : val.Image = "" := by
      simp only [ImageSpec.IsEmpty, decide_eq_true_eq] at hempty
      rw [hempty]
    simp [hempty, this]
  · by_cases himg : val.Image = ""
    · simp [hempty, himg]
    · simp only [hempty, himg, Bool.not_true, Bool.false_eq_true, if_false, ne_eq,
        not_false_eq_true, if_true, Bool.not_false]
      unfold Split
      rw [splitChars_eq ':' val.Image.data]
      by_cases hc : ':' ∈ val.Image.data
      · have hd : val.Image.data.dropWhile (fun c => c ≠ ':') ≠ [] := by
          rw [ne_eq, dropWhile_ne_eq_nil_iff]; exact not_not.mpr hc
        cases hdw : val.Image.data.dropWhile (fun c => c ≠ ':') with
        | nil => exact absurd hdw hd
        | cons d ds =>
            simp only []
            rw [splitChars_eq ':' ds]
            have hdw' : List.dropWhile (fun c => !decide (c = ':')) val.Image.data = d :: ds := by
              simpa using hdw
            simp [hc, setKey, beforeFirstColon, secondPiece, hdw']
      · have hd := (dropWhile_ne_eq_nil_iff ':' val.Image.data).mpr hc
        rw [hd, takeWhile_ne_eq_self ':' _ hc]
        simp [hc, setKey]


/-! ## The configuration projector and the node sink -/

/-- The projector always returns. -/
theorem UpdateHelmValuesFromKubeArmorConfig_eq (ctrl : Controller) (kaConfig : KubeArmorConfig) :
    ∃ relayImage, relayImageValues kaConfig.Spec.KubeArmorRelayImage = some relayImage ∧
      UpdateHelmValuesFromKubeArmorConfig ctrl kaConfig =
        some { ctrl with kaConfigValues := kaConfigHelmValues kaConfig.Spec relayImage } := by
  obtain ⟨ri, hri⟩ := relayImageValues_isSome kaConfig.Spec.KubeArmorRelayImage
  exact ⟨ri, hri, by simp [UpdateHelmValuesFromKubeArmorConfig, hri]⟩

/-- C8: after `UpdateNodeConfigHelmValues ns` the tree `nodeConfigValues` is
exactly `{"nodes": ns}`: the one key `nodes`, holding the records given, in the
order given; nothing of the previous tree is kept, so a call with one record
followed by a call with two leaves two; `kaConfigValues` and the chart fields
are unchanged. -/
theorem UpdateNodeConfigHelmValues_replace (ctrl : Controller) (ns ns' : MapList) :
    (UpdateNodeConfigHelmValues ctrl ns).nodeConfigValues = .cons "nodes" (.maps ns) .nil ∧
    (UpdateNodeConfigHelmValues ctrl ns).nodeConfigValues.keys = ["nodes"] ∧
    lookup "nodes" (UpdateNodeConfigHelmValues ctrl ns).nodeConfigValues = some (.maps ns) ∧
    (UpdateNodeConfigHelmValues (UpdateNodeConfigHelmValues ctrl ns') ns).nodeConfigValues =
      .cons "nodes" (.maps ns) .nil ∧
    (UpdateNodeConfigHelmValues ctrl ns).kaConfigValues = ctrl.kaConfigValues ∧
    (UpdateNodeConfigHelmValues ctrl ns).chart = ctrl.chart ∧
    (UpdateNodeConfigHelmValues ctrl ns).chartName = ctrl.chartName ∧
    (UpdateNodeConfigHelmValues ctrl ns).releaseNamespace = ctrl.releaseNamespace ∧
    (UpdateNodeConfigHelmValues
        (UpdateNodeConfigHelmValues ctrl (.cons nodeBpf .nil))
        (.cons nodeBpf (.cons nodeApparmor .nil))).nodeConfigValues =
      .cons "nodes" (.maps (.cons nodeBpf (.cons nodeApparmor .nil))) .nil ∧
    (MapList.cons nodeBpf (.cons nodeApparmor .nil)).len = 2 ∧
    lookup "nodes" (UpdateNodeConfigHelmValues cfg
        (.cons nodeBpf (.cons nodeApparmor .nil))).nodeConfigValues =
      some (.maps (.cons nodeBpf (.cons nodeApparmor .nil))) := by
  refine ⟨rfl, rfl, ?_, rfl, rfl, rfl, rfl, rfl, rfl, rfl, ?_⟩
  · simp [UpdateNodeConfigHelmValues, setKey, lookup]
  · decide

/-- C9: `UpdateHelmValuesFromKubeArmorConfig` replaces the whole tree: the
tree stored for a configuration `c` is the same from every controller state,
also from the state left by an earlier call with another configuration `c'`,
so no key of the earlier tree survives; `nodeConfigValues`, `chart`,
`chartName` and the namespace are unchanged. -/
theorem UpdateHelmValuesFromKubeArmorConfig_replace (s1 s2 : Controller)
    (c c' : KubeArmorConfig) :
    (∃ tree,
      (UpdateHelmValuesFromKubeArmorConfig s1 c).map (fun s => s.kaConfigValues) = some tree ∧
      (UpdateHelmValuesFromKubeArmorConfig s2 c).map (fun s => s.kaConfigValues) = some tree ∧
      ((UpdateHelmValuesFromKubeArmorConfig s1 c').bind
          (fun s => UpdateHelmValuesFromKubeArmorConfig s c)).map
        (fun s => s.kaConfigValues) = some tree) ∧
    (∃ s, UpdateHelmValuesFromKubeArmorConfig s1 c = some s ∧
      s.nodeConfigValues = s1.nodeConfigValues ∧ s.chart = s1.chart ∧
      s.chartName = s1.chartName ∧ s.releaseNamespace = s1.releaseNamespace) ∧
    ((UpdateHelmValuesFromKubeArmorConfig freshController mainConfig).bind
        (fun s => UpdateHelmValuesFromKubeArmorConfig s blockOnlyConfig)).map
      (fun s => (s.kaConfigValues,
        lookupPath ["kubearmorConfigMap", "visibility"] s.kaConfigValues,
        lookupPath ["kubearmorRelay", "image", "tag"] s.kaConfigValues)) =
      some (blockOnlyValues, none, none) ∧
    (UpdateHelmValuesFromKubeArmorConfig freshController mainConfig).map
      (fun s => (lookupPath ["kubearmorConfigMap", "visibility"] s.kaConfigValues,
        lookupPath ["kubearmorRelay", "image", "tag"] s.kaConfigValues)) =
      some (some (.str "process,file,network"), some (.str "latest")) := by
  obtain ⟨ri, _, h1⟩ := UpdateHelmValuesFromKubeArmorConfig_eq s1 c
  obtain ⟨ri2, hri2, h2⟩ := UpdateHelmValuesFromKubeArmorConfig_eq s2 c
  obtain ⟨ri', _, h1'⟩ := UpdateHelmValuesFromKubeArmorConfig_eq s1 c'
  refine ⟨⟨kaConfigHelmValues c.Spec ri2, ?_, ?_, ?_⟩, ?_, by decide, by decide⟩
  · simp [UpdateHelmValuesFromKubeArmorConfig, hri2]
  · simp [h2]
  · rw [h1']
    simp [UpdateHelmValuesFromKubeArmorConfig, hri2]
  · exact ⟨_, h1, rfl, rfl, rfl, rfl⟩


theorem lookup_condSet (c : Prop) [Decidable c] (k k' : String) (v : Value) (m : Fields) :
    lookup k' (if c then setKey k v m else m) =
      if c ∧ k = k' then some v else lookup k' m := by
  by_cases hc : c <;> simp [hc, lookup_setKey]

theorem mem_keys_iff (k : String) : ∀ m : Fields, k ∈ m.keys ↔ lookup k m ≠ none
  | .nil => by simp [Fields.keys, lookup]
  | .cons k0 v0 rest => by
      have ih := mem_keys_iff k rest
      by_cases h : k0 = k
      · simp [Fields.keys, lookup, h]
      · have h' : ¬ k = k0 := fun e => h e.symm
        simp [Fields.keys, lookup, h, h', ih]

theorem keys_setKey (k : String) (v : Value) :
    ∀ m : Fields, (setKey k v m).keys = if k ∈ m.keys then m.keys else m.keys ++ [k]
  | .nil => by simp [setKey, Fields.keys]
  | .cons k0 v0 rest => by
      have ih := keys_setKey k v rest
      by_cases h : k0 = k
      · simp [setKey, Fields.keys, h]
      · have h' : ¬ k = k0 := fun e => h e.symm
        by_cases hm : k ∈ rest.keys <;> simp [setKey, Fields.keys, h, h', ih, hm]

theorem nodupKeys_setKey (k : String) (v : Value) (m : Fields) (h : m.nodupKeys) :
    (setKey k v m).nodupKeys := by
  unfold Fields.nodupKeys at *
  rw [keys_setKey]
  by_cases hm : k ∈ m.keys
  · simpa [hm] using h
  · simp only [hm, if_false]
    rw [List.nodup_append]
    refine ⟨h, List.nodup_singleton k, ?_⟩
    intro a ha hb
    simp only [List.mem_singleton] at hb
    exact hm (hb ▸ ha)

theorem nodupKeys_condSet (c : Prop) [Decidable c] (k : String) (v : Value) (m : Fields)
    (h : m.nodupKeys) : (if c then setKey k v m else m).nodupKeys := by
  by_cases hc : c
  · simpa [hc] using nodupKeys_setKey k v m h
  · simpa [hc] using h

theorem nodupKeys_nil : Fields.nil.nodupKeys := by
  simp [Fields.nodupKeys, Fields.keys]

theorem nodupKeys_configMapValues (spec : KubeArmorConfigSpec) :
    (configMapValues spec).nodupKeys := by
  unfold configMapValues
  simp only []
  repeat (first | apply nodupKeys_condSet | apply nodupKeys_setKey)
  exact nodupKeys_nil

theorem nodupKeys_kaConfigHelmValues (spec : KubeArmorConfigSpec) (relayImage : Fields) :
    (kaConfigHelmValues spec relayImage).nodupKeys := by
  unfold kaConfigHelmValues
  simp only []
  repeat (first | apply nodupKeys_condSet | apply nodupKeys_setKey)
  exact nodupKeys_nil

/-- What `configMapValues` holds at a key. -/
theorem lookup_configMapValues (spec : KubeArmorConfigSpec) (k : String) :
    lookup k (configMapValues spec) =
      if spec.ThrottleSec ≠ 0 ∧ "throttleSec" = k then some (.int spec.ThrottleSec)
      else if spec.MaxAlertPerSec ≠ 0 ∧ "maxAlertPerSec" = k then
        some (.int spec.MaxAlertPerSec)
      else if "alertThrottling" = k then some (.str (FormatBool spec.AlertThrottling))
      else if spec.DefaultVisibility ≠ "" ∧ "visibility" = k then
        some (.str spec.DefaultVisibility)
      else if spec.DefaultNetworkPosture ≠ "" ∧ "defaultNetworkPosture" = k then
        some (.str spec.DefaultNetworkPosture)
      else if spec.DefaultCapabilitiesPosture ≠ "" ∧ "defaultCapabilitiesPosture" = k then
        some (.str spec.DefaultCapabilitiesPosture)
      else if spec.DefaultFilePosture ≠ "" ∧ "defaultFilePosture" = k then
        some (.str spec.DefaultFilePosture)
      else none := by
  simp only [configMapValues, lookup_condSet, lookup_setKey, lookup]

/-- What `relayTLSValues` holds at a key. -/
theorem lookup_relayTLSValues (tls : Tls) (k : String) :
    lookup k (relayTLSValues tls) =
      if tls.RelayExtraIpAddresses.length > 0 ∧ "extraIpAddresses" = k then
        some (.strs tls.RelayExtraIpAddresses)
      else if tls.RelayExtraDnsNames.length > 0 ∧ "extraDnsNames" = k then
        some (.strs tls.RelayExtraDnsNames)
      else none := by
  simp only [relayTLSValues, lookup_condSet, lookup_setKey, lookup]

/-- C10: for every configuration the subtree `kubearmorConfigMap` holds
`alertThrottling` always, as the string `true` or `false`; it holds each of
`defaultFilePosture`, `defaultCapabilitiesPosture`, `defaultNetworkPosture`,
`visibility`, `maxAlertPerSec` and `throttleSec` exactly when the source field
is not the empty string, or not zero, with the value of the source field; it
holds no other key.  The subtree `kubearmorRelay.tls` holds `extraDnsNames`
and `extraIpAddresses` exactly when the source list is not empty, and no
other key. -/
theorem configMap_projection (ctrl : Controller) (kaConfig : KubeArmorConfig) :
    ∃ ctrl' cm relay relayTLS,
      UpdateHelmValuesFromKubeArmorConfig ctrl kaConfig = some ctrl' ∧
      lookup "kubearmorConfigMap" ctrl'.kaConfigValues = some (.map cm) ∧
      lookup "alertThrottling" cm =
        some (.str (if kaConfig.Spec.AlertThrottling then "true" else "false")) ∧
      lookup "defaultFilePosture" cm =
        (if kaConfig.Spec.DefaultFilePosture = "" then none
         else some (.str kaConfig.Spec.DefaultFilePosture)) ∧
      lookup "defaultCapabilitiesPosture" cm =
        (if kaConfig.Spec.DefaultCapabilitiesPosture = "" then none
         else some (.str kaConfig.Spec.DefaultCapabilitiesPosture)) ∧
      lookup "defaultNetworkPosture" cm =
        (if kaConfig.Spec.DefaultNetworkPosture = "" then none
         else some (.str kaConfig.Spec.DefaultNetworkPosture)) ∧
      lookup "visibility" cm =
        (if kaConfig.Spec.DefaultVisibility = "" then none
         else some (.str kaConfig.Spec.DefaultVisibility)) ∧
      lookup "maxAlertPerSec" cm =
        (if kaConfig.Spec.MaxAlertPerSec = 0 then none
         else some (.int kaConfig.Spec.MaxAlertPerSec)) ∧
      lookup "throttleSec" cm =
        (if kaConfig.Spec.ThrottleSec = 0 then none
         else some (.int kaConfig.Spec.ThrottleSec)) ∧
      cm.keys ⊆ ["defaultFilePosture", "defaultCapabilitiesPosture", "defaultNetworkPosture",
        "visibility", "alertThrottling", "maxAlertPerSec", "throttleSec"] ∧
      cm.nodupKeys ∧
      lookup "kubearmorRelay" ctrl'.kaConfigValues = some (.map relay) ∧
      lookup "tls" relay = some (.map relayTLS) ∧
      lookup "extraDnsNames" relayTLS =
        (if kaConfig.Spec.Tls.RelayExtraDnsNames = [] then none
         else some (.strs kaConfig.Spec.Tls.RelayExtraDnsNames)) ∧
      lookup "extraIpAddresses" relayTLS =
        (if kaConfig.Spec.Tls.RelayExtraIpAddresses = [] then none
         else some (.strs kaConfig.Spec.Tls.RelayExtraIpAddresses)) ∧
      relayTLS.keys ⊆ ["extraDnsNames", "extraIpAddresses"] := by
  obtain ⟨ri, _, hupd⟩ := UpdateHelmValuesFromKubeArmorConfig_eq ctrl kaConfig
  refine ⟨_, configMapValues kaConfig.Spec, relayValues kaConfig.Spec ri,
    relayTLSValues kaConfig.Spec.Tls, hupd, ?_, ?_, ?_, ?_, ?_, ?_, ?_, ?_, ?_, ?_, ?_, ?_,
    ?_, ?_, ?_⟩
  · simp [kaConfigHelmValues, lookup_setKey, lookup]
  · rw [lookup_configMapValues]; simp [FormatBool]
  · rw [lookup_configMapValues]; simp
  · rw [lookup_configMapValues]; simp
  · rw [lookup_configMapValues]; simp
  · rw [lookup_configMapValues]; simp
  · rw [lookup_configMapValues]; simp
  · rw [lookup_configMapValues]; simp
  · intro k hk
    rw [mem_keys_iff, lookup_configMapValues] at hk
    by_contra hne
    simp only [List.mem_cons, List.mem_singleton, not_or, List.not_mem_nil, or_false] at hne
    apply hk
    obtain ⟨h1, h2, h3, h4, h5, h6, h7⟩ := hne
    simp [Ne.symm h1, Ne.symm h2, Ne.symm h3, Ne.symm h4, Ne.symm h5, Ne.symm h6, Ne.symm h7]
  · exact nodupKeys_configMapValues _
  · simp [kaConfigHelmValues, lookup_setKey, lookup]
  · simp only [relayValues]
    split_ifs <;> simp [lookup_setKey, lookup]
  · rw [lookup_relayTLSValues]; simp [List.length_pos, apply_ite]
  · rw [lookup_relayTLSValues]; simp [List.length_pos, apply_ite]
  · intro k hk
    rw [mem_keys_iff, lookup_relayTLSValues] at hk
    by_contra hne
    simp only [List.mem_cons, List.mem_singleton, not_or, List.not_mem_nil, or_false] at hne
    apply hk
    obtain ⟨h1, h2⟩ := hne
    simp [Ne.symm h1, Ne.symm h2]


/-- The keys of `configMapValues`, in the order of the statements. -/
theorem configMapValues_keys (spec : KubeArmorConfigSpec) :
    (configMapValues spec).keys =
      (if spec.DefaultFilePosture = "" then [] else ["defaultFilePosture"]) ++
      (if spec.DefaultCapabilitiesPosture = "" then [] else ["defaultCapabilitiesPosture"]) ++
      (if spec.DefaultNetworkPosture = "" then [] else ["defaultNetworkPosture"]) ++
      (if spec.DefaultVisibility = "" then [] else ["visibility"]) ++
      ["alertThrottling"] ++
      (if spec.MaxAlertPerSec = 0 then [] else ["maxAlertPerSec"]) ++
      (if spec.ThrottleSec = 0 then [] else ["throttleSec"]) := by
  unfold configMapValues
  simp only []
  by_cases h1 : spec.DefaultFilePosture = "" <;>
  by_cases h2 : spec.DefaultCapabilitiesPosture = "" <;>
  by_cases h3 : spec.DefaultNetworkPosture = "" <;>
  by_cases h4 : spec.DefaultVisibility = "" <;>
  by_cases h5 : spec.MaxAlertPerSec = 0 <;>
  by_cases h6 : spec.ThrottleSec = 0 <;>
  simp [h1, h2, h3, h4, h5, h6, setKey, Fields.keys]


theorem relayTLSValues_keys (tls : Tls) :
    (relayTLSValues tls).keys =
      (if tls.RelayExtraDnsNames = [] then [] else ["extraDnsNames"]) ++
      (if tls.RelayExtraIpAddresses = [] then [] else ["extraIpAddresses"]) := by
  unfold relayTLSValues
  simp only []
  by_cases h1 : tls.RelayExtraDnsNames = [] <;>
  by_cases h2 : tls.RelayExtraIpAddresses = [] <;>
  simp [h1, h2, setKey, Fields.keys, List.length_pos]

theorem relayValues_keys (spec : KubeArmorConfigSpec) (relayImage : Fields) :
    (relayValues spec relayImage).keys =
      ["tls", "image"] ++
      (if spec.KubeArmorRelayImage.ImagePullPolicy = "" then [] else ["imagePullPolicy"]) ++
      ["enableStdoutLogs", "enableStdoutAlerts", "enableStdoutMsg"] := by
  unfold relayValues
  simp only []
  by_cases h1 : spec.KubeArmorRelayImage.ImagePullPolicy = ""
  · by_cases h2 : spec.KubeArmorRelayImage.IsEmpty = true <;>
      simp [h1, h2, setKey, Fields.keys]
  · have h2 : spec.KubeArmorRelayImage.IsEmpty = false := by
      simp only [ImageSpec.IsEmpty, decide_eq_false_iff_not]
      intro h
      rw [h] at h1
      exact h1 rfl
    simp [h1, h2, setKey, Fields.keys]

/-- C6, as stated, fails: for the configuration whose only set field is
`DefaultFilePosture: "block"` the stored tree is not the tree with the single
key `kubearmorConfigMap`; it also holds `tls.enabled` and, under
`kubearmorRelay`, the maps `tls` and `image` and the three stdout flags, whose
source fields are unset. -/
theorem projection_blockOnly_counterexample :
    (UpdateHelmValuesFromKubeArmorConfig freshController blockOnlyConfig).map
        (fun s => s.kaConfigValues) ≠ some blockOnlyClaimed ∧
    (UpdateHelmValuesFromKubeArmorConfig freshController blockOnlyConfig).map
        (fun s => s.kaConfigValues) = some blockOnlyValues ∧
    lookup "tls" blockOnlyClaimed = none ∧
    lookupPath ["tls", "enabled"] blockOnlyValues = some (.bool false) ∧
    blockOnlyConfig.Spec.Tls.Enable = false ∧
    lookupPath ["kubearmorRelay", "enableStdoutLogs"] blockOnlyValues = some (.str "false") ∧
    blockOnlyConfig.Spec.EnableStdOutLogs = false := by
  decide

/-- C6, amended: for the configuration whose only set field is
`DefaultFilePosture: "block"` the stored tree is `blockOnlyValues`, whose
subtree `kubearmorConfigMap` is `{defaultFilePosture: "block",
alertThrottling: "false"}`.  For every configuration the stored tree has the
keys `kubearmorConfigMap`, `tls` and `kubearmorRelay`; the keys emitted
whatever the source holds are `alertThrottling`, `tls.enabled`, the maps
`kubearmorRelay.tls` and `kubearmorRelay.image` and the three stdout flags;
every other key is present only if its source field is set. -/
theorem projection_optional_keys (ctrl : Controller) (kaConfig : KubeArmorConfig) :
    (UpdateHelmValuesFromKubeArmorConfig ctrl blockOnlyConfig).map
        (fun s => s.kaConfigValues) = some blockOnlyValues ∧
    ∃ ctrl' cm tls relay relayTLS relayImage,
      UpdateHelmValuesFromKubeArmorConfig ctrl kaConfig = some ctrl' ∧
      ctrl'.kaConfigValues =
        .cons "kubearmorConfigMap" (.map cm)
          (.cons "tls" (.map tls) (.cons "kubearmorRelay" (.map relay) .nil)) ∧
      cm.keys =
        (if kaConfig.Spec.DefaultFilePosture = "" then [] else ["defaultFilePosture"]) ++
        (if kaConfig.Spec.DefaultCapabilitiesPosture = "" then []
         else ["defaultCapabilitiesPosture"]) ++
        (if kaConfig.Spec.DefaultNetworkPosture = "" then [] else ["defaultNetworkPosture"]) ++
        (if kaConfig.Spec.DefaultVisibility = "" then [] else ["visibility"]) ++
        ["alertThrottling"] ++
        (if kaConfig.Spec.MaxAlertPerSec = 0 then [] else ["maxAlertPerSec"]) ++
        (if kaConfig.Spec.ThrottleSec = 0 then [] else ["throttleSec"]) ∧
      tls.keys = ["enabled"] ∧
      relay.keys =
        ["tls", "image"] ++
        (if kaConfig.Spec.KubeArmorRelayImage.ImagePullPolicy = "" then []
         else ["imagePullPolicy"]) ++
        ["enableStdoutLogs", "enableStdoutAlerts", "enableStdoutMsg"] ∧
      lookup "tls" relay = some (.map relayTLS) ∧
      lookup "image" relay = some (.map relayImage) ∧
      relayTLS.keys =
        (if kaConfig.Spec.Tls.RelayExtraDnsNames = [] then [] else ["extraDnsNames"]) ++
        (if kaConfig.Spec.Tls.RelayExtraIpAddresses = [] then [] else ["extraIpAddresses"]) ∧
      relayImage.keys =
        (if kaConfig.Spec.KubeArmorRelayImage.Image = "" then []
         else if ':' ∈ kaConfig.Spec.KubeArmorRelayImage.Image.data then ["repository", "tag"]
         else ["repository"]) := by
  constructor
  · simp only [UpdateHelmValuesFromKubeArmorConfig]
    have h : relayImageValues blockOnlyConfig.Spec.KubeArmorRelayImage = some .nil := by decide
    rw [h]
    simp only [Option.map_some']
    decide
  · obtain ⟨ri, hri, hkeys⟩ : ∃ ri,
        relayImageValues kaConfig.Spec.KubeArmorRelayImage = some ri ∧
        ri.keys =
          (if kaConfig.Spec.KubeArmorRelayImage.Image = "" then []
           else if ':' ∈ kaConfig.Spec.KubeArmorRelayImage.Image.data then ["repository", "tag"]
           else ["repository"]) :=
      ⟨_, relayImageValues_eq _, by split_ifs <;> simp [Fields.keys]⟩
    refine ⟨{ ctrl with kaConfigValues := kaConfigHelmValues kaConfig.Spec ri },
      configMapValues kaConfig.Spec, setKey "enabled" (.bool kaConfig.Spec.Tls.Enable) .nil,
      relayValues kaConfig.Spec ri, relayTLSValues kaConfig.Spec.Tls, ri, ?_, ?_,
      configMapValues_keys _, rfl, relayValues_keys _ _, ?_, ?_, relayTLSValues_keys _, hkeys⟩
    · simp only [UpdateHelmValuesFromKubeArmorConfig, hri]
    · simp [kaConfigHelmValues, setKey]
    · simp only [relayValues]
      split_ifs <;> simp [lookup_setKey, lookup]
    · simp only [relayValues]
      split_ifs <;> simp [lookup_setKey, lookup]


/-- C7, at an image reference with two colons: for
`registry:5000/repo/img:tag` the code stores the repository `registry` and the
tag `5000/repo/img`, the piece between the first and the second colon, and
drops `:tag`; everything after the first colon would be `5000/repo/img:tag`.
References with at most one colon are stored as the claim says. -/
theorem relayImage_two_colons :
    (UpdateHelmValuesFromKubeArmorConfig freshController
        (relayConfig "registry:5000/repo/img:tag")).map
      (fun s => lookupPath ["kubearmorRelay", "image"] s.kaConfigValues) =
      some (some (.map (.cons "repository" (.str "registry")
        (.cons "tag" (.str "5000/repo/img") .nil)))) ∧
    beforeFirstColon "registry:5000/repo/img:tag" = "registry" ∧
    afterFirstColon "registry:5000/repo/img:tag" = "5000/repo/img:tag" ∧
    (UpdateHelmValuesFromKubeArmorConfig freshController
        (relayConfig "registry:5000/repo/img:tag")).map
      (fun s => lookupPath ["kubearmorRelay", "image", "tag"] s.kaConfigValues) ≠
      some (some (.str (afterFirstColon "registry:5000/repo/img:tag"))) ∧
    (UpdateHelmValuesFromKubeArmorConfig freshController (relayConfig "repo/img:tag")).map
      (fun s => lookupPath ["kubearmorRelay", "image"] s.kaConfigValues) =
      some (some (.map (.cons "repository" (.str "repo/img")
        (.cons "tag" (.str "tag") .nil)))) ∧
    (UpdateHelmValuesFromKubeArmorConfig freshController (relayConfig "repo/img")).map
      (fun s => lookupPath ["kubearmorRelay", "image"] s.kaConfigValues) =
      some (some (.map (.cons "repository" (.str "repo/img") .nil))) := by
  decide

/-! ## Errors of the history query -/

/-- C11, at a history query that fails with an error other than
`ErrReleaseNotFound` and returns no release: on a controller with both trees
written, `UpgradeRelease` does not return the error; it indexes the empty
history and panics.  No install and no upgrade call is issued. -/
theorem UpgradeRelease_history_error (msg : String) :
    UpgradeRelease readyController (sampleEngine ([], some (.other msg))) = (.panicked, []) ∧
    (UpgradeRelease readyController (sampleEngine ([], some (.other msg)))).1 ≠
      .returned none (some (.other msg)) := by
  have h : UpgradeRelease readyController (sampleEngine ([], some (.other msg))) =
      (.panicked, []) := by
    simp [UpgradeRelease, sampleEngine, readyController, freshController, NewHelmController,
      blockOnlyValues, Fields.len]
  rw [h]
  exact ⟨rfl, by simp⟩

/-- C12, at a history lookup that fails with an error other than release-not-found:
`checkIfCleanUpRequired` answers false and `Preinstall` returns nil, that is
success, with no delete issued; the failure does not propagate.  When the
lookup reports release-not-found, or an empty history, `Preinstall` returns
nil with no delete issued, as claimed. -/
theorem Preinstall_lookup_error (cmp : String → String → Int) (ctrl : Controller)
    (msg : String) (resources : List resource)
    (mapping : String → String → Option GroupVersionResource)
    (delete : List DeleteCall → DeleteCall → Option GoError) (daemonSets : List String) :
    checkIfCleanUpRequired cmp (sampleEngine ([], some (.other msg))) = some false ∧
    Preinstall cmp ctrl (sampleEngine ([], some (.other msg)))
        (sampleCluster resources mapping delete daemonSets) = (.returned none, []) ∧
    Preinstall cmp ctrl (sampleEngine ([], some .ErrReleaseNotFound))
        (sampleCluster resources mapping delete daemonSets) = (.returned none, []) ∧
    Preinstall cmp ctrl (sampleEngine ([], none))
        (sampleCluster resources mapping delete daemonSets) = (.returned none, []) := by
  have h1 : checkIfCleanUpRequired cmp (sampleEngine ([], some (.other msg))) = some false := by
    simp [checkIfCleanUpRequired, sampleEngine, cleanUpScan]
  have h2 : checkIfCleanUpRequired cmp (sampleEngine ([], some .ErrReleaseNotFound)) =
      some false := by
    simp [checkIfCleanUpRequired, sampleEngine]
  have h3 : checkIfCleanUpRequired cmp (sampleEngine ([], none)) = some false := by
    simp [checkIfCleanUpRequired, sampleEngine, cleanUpScan]
  refine ⟨h1, ?_, ?_, ?_⟩
  · simp [Preinstall, sampleCluster, h1]
  · simp [Preinstall, sampleCluster, h2]
  · simp [Preinstall, sampleCluster, h3]

/-- With an empty tree `UpgradeRelease` stops at the gate. -/
theorem UpgradeRelease_gate_eq (ctrl : Controller) (helm : Engine)
    (h : ctrl.kaConfigValues = .nil ∨ ctrl.nodeConfigValues = .nil) :
    UpgradeRelease ctrl helm = (.returned none (some notReadyError), []) := by
  have hlen : ctrl.kaConfigValues.len < 1 ∨ ctrl.nodeConfigValues.len < 1 := by
    rcases h with h | h
    · left; rw [h]; decide
    · right; rw [h]; decide
  unfold UpgradeRelease
  simp only [hlen, if_true]

/-! ## The reconciler -/

/-- C13, as stated, fails: a release whose status is the text
`nodes are not processed or kubearmorconfig` makes `UpgradeRelease` return the
unexpected-status error, not the not-ready error, and `Reconcile` still
classifies it as not-ready: a requeue after one minute and a nil error. -/
theorem Reconcile_status_counterexample :
    UpgradeRelease readyController
        (sampleEngine ([sampleRelease "nodes are not processed or kubearmorconfig"
          "v1.3.8" .nil], none)) =
      (.returned none (some (.errorf ("previous release status is not deployed but " ++
        "nodes are not processed or kubearmorconfig"))), []) ∧
    GoError.errorf ("previous release status is not deployed but " ++
        "nodes are not processed or kubearmorconfig") ≠ notReadyError ∧
    (Reconcile readyController
        (sampleEngine ([sampleRelease "nodes are not processed or kubearmorconfig"
          "v1.3.8" .nil], none)) (.ok blockOnlyConfig)).1 =
      .returned { Requeue := false, RequeueAfter := 60000000000 } none := by
  decide

/-- C13, amended: `Reconcile` recognizes the not-ready condition by the text of
the message.  The error of the closed gate holds the marker text and gives a
requeue after one minute with a nil error.  Any error that `UpgradeRelease`
returns is returned by `Reconcile` unchanged, with the zero result, when its
message does not hold the marker, and is treated as not-ready when it does.
The unexpected-status message of each helm status does not hold the marker. -/
theorem Reconcile_classification (ctrl : Controller) (helm : Engine)
    (config : KubeArmorConfig) :
    ∃ ctrl', UpdateHelmValuesFromKubeArmorConfig ctrl config = some ctrl' ∧
      (ctrl.nodeConfigValues = .nil →
        UpgradeRelease ctrl' helm = (.returned none (some notReadyError), []) ∧
        Reconcile ctrl helm (.ok config) =
          (.returned { Requeue := false, RequeueAfter := 1 * Minute } none, ctrl', [])) ∧
      (∀ rel e calls, UpgradeRelease ctrl' helm = (.returned rel (some e), calls) →
        Contains e.Error notReadyMarker = false →
        Reconcile ctrl helm (.ok config) = (.returned Result.zero (some e), ctrl', calls)) ∧
      (∀ rel e calls, UpgradeRelease ctrl' helm = (.returned rel (some e), calls) →
        Contains e.Error notReadyMarker = true →
        Reconcile ctrl helm (.ok config) =
          (.returned { Requeue := false, RequeueAfter := 1 * Minute } none, ctrl', calls)) ∧
      Contains notReadyError.Error notReadyMarker = true ∧
      (∀ s ∈ helmStatuses,
        Contains (GoError.errorf ("previous release status is not deployed but " ++ s)).Error
          notReadyMarker = false) ∧
      1 * Minute = 60 * Second := by
  obtain ⟨ri, _, hupd⟩ := UpdateHelmValuesFromKubeArmorConfig_eq ctrl config
  have hclass : ∀ rel e calls ctrl',
      UpdateHelmValuesFromKubeArmorConfig ctrl config = some ctrl' →
      UpgradeRelease ctrl' helm = (.returned rel (some e), calls) →
      Reconcile ctrl helm (.ok config) =
        (if Contains e.Error notReadyMarker then
          (.returned { Requeue := false, RequeueAfter := 1 * Minute } none, ctrl', calls)
         else (.returned Result.zero (some e), ctrl', calls)) := by
    intro rel e calls ctrl' h1 h2
    simp only [Reconcile, h1, h2, Result.zero]
  refine ⟨_, hupd, ?_, ?_, ?_, by decide, by decide, by decide⟩
  · intro hnode
    have hgate := UpgradeRelease_gate_eq
      { ctrl with kaConfigValues := kaConfigHelmValues config.Spec ri } helm (Or.inr hnode)
    refine ⟨hgate, ?_⟩
    rw [hclass _ _ _ _ hupd hgate]
    have : Contains notReadyError.Error notReadyMarker = true := by decide
    simp only [this, if_true]
  · intro rel e calls h hc
    rw [hclass _ _ _ _ hupd h]
    simp [hc]
  · intro rel e calls h hc
    rw [hclass _ _ _ _ hupd h]
    simp [hc]

/-- C13, on the controller of `main.go` before any node record arrived (not
ready), and on a ready controller whose latest release has status `failed`
(the error is returned with the zero result). -/
theorem Reconcile_classification_witness :
    (Reconcile freshController (sampleEngine ([], some .ErrReleaseNotFound))
        (.ok mainConfig)).1 =
      .returned { Requeue := false, RequeueAfter := 60000000000 } none ∧
    (Reconcile readyController (sampleEngine ([sampleRelease "failed" "v1.3.8" .nil], none))
        (.ok blockOnlyConfig)).1 =
      .returned Result.zero
        (some (.errorf "previous release status is not deployed but failed")) := by
  obtain ⟨c1, h1, hgate, _⟩ := Reconcile_classification freshController
    (sampleEngine ([], some .ErrReleaseNotFound)) mainConfig
  obtain ⟨c2, h2, _, hother, _⟩ := Reconcile_classification readyController
    (sampleEngine ([sampleRelease "failed" "v1.3.8" .nil], none)) blockOnlyConfig
  constructor
  · rw [(hgate rfl).2]
    exact (by decide : ReconcileOutcome.returned { Requeue := false, RequeueAfter := 1 * Minute }
      none = .returned { Requeue := false, RequeueAfter := 60000000000 } none)
  · have hc2 : c2 = readyController := by
      have : UpdateHelmValuesFromKubeArmorConfig readyController blockOnlyConfig =
          some readyController := by decide
      rw [this] at h2
      exact (Option.some.inj h2).symm
    subst hc2
    rw [hother none (.errorf "previous release status is not deployed but failed") []
      (by decide) (by decide)]

/-! ## Merging trees with disjoint keys -/

theorem keys_append : ∀ a b : Fields, (a.append b).keys = a.keys ++ b.keys
  | .nil, b => by simp [Fields.append, Fields.keys]
  | .cons k v rest, b => by simp [Fields.append, Fields.keys, keys_append rest b]

theorem append_nil : ∀ a : Fields, a.append .nil = a
  | .nil => rfl
  | .cons k v rest => by simp [Fields.append, append_nil rest]

theorem append_assoc : ∀ a b c : Fields, (a.append b).append c = a.append (b.append c)
  | .nil, b, c => rfl
  | .cons k v rest, b, c => by simp [Fields.append, append_assoc rest b c]

theorem lookup_append (k : String) :
    ∀ a b : Fields, lookup k (a.append b) = (lookup k a).orElse (fun _ => lookup k b)
  | .nil, b => by simp [Fields.append, lookup]
  | .cons k0 v0 rest, b => by
      by_cases h : k0 = k <;> simp [Fields.append, lookup, h, lookup_append k rest b]

/-- Writing a key the map does not hold adds an entry at the end. -/
theorem setKey_of_not_mem (k : String) (v : Value) :
    ∀ m : Fields, k ∉ m.keys → setKey k v m = m.append (.cons k v .nil)
  | .nil, _ => rfl
  | .cons k0 v0 rest, h => by
      simp only [Fields.keys, List.mem_cons, not_or] at h
      have h0 : ¬ k0 = k := fun e => h.1 e.symm
      simp [setKey, h0, Fields.append, setKey_of_not_mem k v rest h.2]

/-- Copying a map into a map with other keys appends it. -/
theorem copyLoop_eq_append :
    ∀ a out : Fields, a.nodupKeys → (∀ k ∈ a.keys, k ∉ out.keys) →
      copyLoop a out = out.append a
  | .nil, out, _, _ => by simp [copyLoop, append_nil]
  | .cons k0 v0 rest, out, h, hd => by
      have hn : k0 ∉ rest.keys ∧ rest.nodupKeys := by
        simpa [Fields.nodupKeys, Fields.keys] using h
      have hk0 : k0 ∉ out.keys := hd k0 (by simp [Fields.keys])
      have hd' : ∀ k ∈ rest.keys, k ∉ (out.append (.cons k0 v0 .nil)).keys := by
        intro k hk
        rw [keys_append]
        simp only [Fields.keys, List.mem_append, List.mem_singleton, not_or]
        refine ⟨hd k (by simp [Fields.keys, hk]), ?_⟩
        intro e
        exact hn.1 (e ▸ hk)
      rw [copyLoop, setKey_of_not_mem k0 v0 out hk0,
        copyLoop_eq_append rest _ hn.2 hd', append_assoc]
      rfl

/-- Laying a map over a map with other keys appends it. -/
theorem mergeLoop_eq_append :
    ∀ b out : Fields, b.nodupKeys → (∀ k ∈ b.keys, k ∉ out.keys) →
      mergeLoop b out = out.append b
  | .nil, out, _, _ => by simp [mergeLoop, append_nil]
  | .cons k0 v0 rest, out, h, hd => by
      have hn : k0 ∉ rest.keys ∧ rest.nodupKeys := by
        simpa [Fields.nodupKeys, Fields.keys] using h
      have hk0 : k0 ∉ out.keys := hd k0 (by simp [Fields.keys])
      have hl : lookup k0 out = none := lookup_eq_none_of_not_mem k0 out hk0
      have hd' : ∀ k ∈ rest.keys, k ∉ (out.append (.cons k0 v0 .nil)).keys := by
        intro k hk
        rw [keys_append]
        simp only [Fields.keys, List.mem_append, List.mem_singleton, not_or]
        refine ⟨hd k (by simp [Fields.keys, hk]), ?_⟩
        intro e
        exact hn.1 (e ▸ hk)
      have hstep : mergeLoop (.cons k0 v0 rest) out = mergeLoop rest (setKey k0 v0 out) := by
        cases v0 with
        | map v => rw [mergeLoop]; simp only [hl]
        | _ => simp only [mergeLoop]
      rw [hstep, setKey_of_not_mem k0 v0 out hk0,
        mergeLoop_eq_append rest _ hn.2 hd', append_assoc]
      rfl

theorem mergeMaps_eq_append (a b : Fields) (ha : a.nodupKeys) (hb : b.nodupKeys)
    (hab : ∀ k ∈ b.keys, k ∉ a.keys) : mergeMaps a b = a.append b := by
  unfold mergeMaps
  have hc : copyLoop a .nil = a := by
    rw [copyLoop_eq_append a .nil ha (by simp [Fields.keys])]
    rfl
  rw [hc, mergeLoop_eq_append b a hb hab]

theorem nodupKeys_append (a b : Fields) (ha : a.nodupKeys) (hb : b.nodupKeys)
    (hab : ∀ k ∈ b.keys, k ∉ a.keys) : (a.append b).nodupKeys := by
  unfold Fields.nodupKeys at *
  rw [keys_append, List.nodup_append]
  refine ⟨ha, hb, ?_⟩
  intro k hka hkb
  exact hab k hkb hka

/-- C15: for maps `a`, `b`, `c` whose top-level key sets are pairwise disjoint,
merging is associative, `mergeMaps (mergeMaps a b) c = mergeMaps a (mergeMaps b
c)`, and both sides are the union of the three maps: the entries of `a`, of `b`
and of `c`, so that a key reads what the one map holding it holds. -/
theorem mergeMaps_assoc_disjoint (a b c : Fields)
    (ha : a.nodupKeys) (hb : b.nodupKeys) (hc : c.nodupKeys)
    (hab : ∀ k ∈ b.keys, k ∉ a.keys) (hac : ∀ k ∈ c.keys, k ∉ a.keys)
    (hbc : ∀ k ∈ c.keys, k ∉ b.keys) :
    mergeMaps (mergeMaps a b) c = mergeMaps a (mergeMaps b c) ∧
    mergeMaps (mergeMaps a b) c = (a.append b).append c ∧
    mergeMaps a (mergeMaps b c) = (a.append b).append c ∧
    (∀ k, lookup k (mergeMaps (mergeMaps a b) c) =
      (lookup k a).orElse (fun _ => (lookup k b).orElse (fun _ => lookup k c))) := by
  have h1 : mergeMaps a b = a.append b := mergeMaps_eq_append a b ha hb hab
  have h2 : mergeMaps b c = b.append c := mergeMaps_eq_append b c hb hc hbc
  have hcab : ∀ k ∈ c.keys, k ∉ (a.append b).keys := by
    intro k hk
    rw [keys_append]
    simp only [List.mem_append, not_or]
    exact ⟨hac k hk, hbc k hk⟩
  have hbca : ∀ k ∈ (b.append c).keys, k ∉ a.keys := by
    intro k hk
    rw [keys_append] at hk
    rcases List.mem_append.mp hk with h | h
    · exact hab k h
    · exact hac k h
  have h3 : mergeMaps (mergeMaps a b) c = (a.append b).append c := by
    rw [h1]
    exact mergeMaps_eq_append _ c (nodupKeys_append a b ha hb hab) hc hcab
  have h4 : mergeMaps a (mergeMaps b c) = (a.append b).append c := by
    rw [h2, append_assoc]
    exact mergeMaps_eq_append a _ ha (nodupKeys_append b c hb hc hbc) hbca
  refine ⟨h3.trans h4.symm, h3, h4, ?_⟩
  intro k
  rw [h3, lookup_append, lookup_append]
  cases lookup k a <;> simp

/-- C15, on three maps with the keys `a`, `b` and `y`. -/
theorem mergeMaps_assoc_disjoint_witness :
    mergeMaps (mergeMaps (.cons "a" (.int 1) .nil) (.cons "b" (.map (.cons "x" (.int 1) .nil))
        .nil)) (.cons "y" (.int 2) .nil) =
      mergeMaps (.cons "a" (.int 1) .nil)
        (mergeMaps (.cons "b" (.map (.cons "x" (.int 1) .nil)) .nil) (.cons "y" (.int 2) .nil)) ∧
    mergeMaps (mergeMaps (.cons "a" (.int 1) .nil) (.cons "b" (.map (.cons "x" (.int 1) .nil))
        .nil)) (.cons "y" (.int 2) .nil) =
      .cons "a" (.int 1) (.cons "b" (.map (.cons "x" (.int 1) .nil))
        (.cons "y" (.int 2) .nil)) :=
  ⟨(mergeMaps_assoc_disjoint (.cons "a" (.int 1) .nil)
      (.cons "b" (.map (.cons "x" (.int 1) .nil)) .nil) (.cons "y" (.int 2) .nil)
      (by decide) (by decide) (by decide) (by decide) (by decide) (by decide)).1,
   by decide⟩

/-! ## From a fresh controller to the install call -/

/-- C14: start from the controller built by `NewHelmController`, project any
configuration `c` and store any node sequence `nodes`, in either order: the
controller reached is the same, and when the history query reports
`ErrReleaseNotFound`, `UpgradeRelease` passes the gate and issues one install
call, with wait enabled and a timeout of five minutes, whose values hold the
key `kubearmorConfigMap` with the subtree projected from `c` and the key
`nodes` with `nodes`. -/
theorem end_to_end_install (chartName releaseNamespace : String) (chart : Chart)
    (c : KubeArmorConfig) (nodes : MapList) (helm : Engine) (hist : List Release)
    (hq : helm.History chartName 1 = (hist, some .ErrReleaseNotFound)) :
    ∃ ctrl client vals,
      (UpdateHelmValuesFromKubeArmorConfig
          (NewHelmController chartName releaseNamespace chart) c).map
        (fun s => UpdateNodeConfigHelmValues s nodes) = some ctrl ∧
      UpdateHelmValuesFromKubeArmorConfig
          (UpdateNodeConfigHelmValues (NewHelmController chartName releaseNamespace chart)
            nodes) c = some ctrl ∧
      ctrl.kaConfigValues ≠ .nil ∧ ctrl.nodeConfigValues ≠ .nil ∧
      (UpgradeRelease ctrl helm).2 = [Call.install client chart vals] ∧
      (UpgradeRelease ctrl helm).1 =
        Outcome.returned (helm.InstallRun client chart vals).1
          (helm.InstallRun client chart vals).2 ∧
      client.Wait = true ∧ client.Timeout = 5 * Minute ∧ 5 * Minute = 300 * Second ∧
      vals = mergeMaps ctrl.kaConfigValues ctrl.nodeConfigValues ∧
      lookup "kubearmorConfigMap" ctrl.kaConfigValues = some (.map (configMapValues c.Spec)) ∧
      lookup "kubearmorConfigMap" vals = some (.map (configMapValues c.Spec)) ∧
      lookup "nodes" vals = some (.maps nodes) := by
  obtain ⟨ri, hri, hupd⟩ := UpdateHelmValuesFromKubeArmorConfig_eq
    (NewHelmController chartName releaseNamespace chart) c
  have hka : (kaConfigHelmValues c.Spec ri).nodupKeys := nodupKeys_kaConfigHelmValues _ _
  have hnode : (setKey "nodes" (.maps nodes) .nil).nodupKeys :=
    nodupKeys_setKey _ _ _ nodupKeys_nil
  have hcm : lookup "kubearmorConfigMap" (kaConfigHelmValues c.Spec ri) =
      some (.map (configMapValues c.Spec)) := by
    simp [kaConfigHelmValues, lookup_setKey, lookup]
  have hnk : lookup "nodes" (kaConfigHelmValues c.Spec ri) = none := by
    simp [kaConfigHelmValues, lookup_setKey, lookup]
  have hne : kaConfigHelmValues c.Spec ri ≠ .nil := by
    intro h
    rw [h] at hcm
    simp [lookup] at hcm
  refine ⟨{ NewHelmController chartName releaseNamespace chart with
      kaConfigValues := kaConfigHelmValues c.Spec ri
      nodeConfigValues := setKey "nodes" (.maps nodes) .nil },
    { Namespace := releaseNamespace, ReleaseName := chartName, Wait := true,
      Timeout := 5 * Minute },
    mergeMaps (kaConfigHelmValues c.Spec ri) (setKey "nodes" (.maps nodes) .nil),
    ?_, ?_, hne, ?_, ?_, ?_, rfl, rfl, by decide, rfl, hcm, ?_, ?_⟩
  · rw [hupd]
    rfl
  · simp [UpdateHelmValuesFromKubeArmorConfig, hri, UpdateNodeConfigHelmValues,
      NewHelmController]
  · simp [setKey]
  · have hgate : ¬ ((kaConfigHelmValues c.Spec ri).len < 1 ∨
        (setKey "nodes" (.maps nodes) .nil).len < 1) := by
      intro h
      rcases h with h | h
      · exact not_len_lt_one _ hne h
      · simp [setKey, Fields.len] at h
    unfold UpgradeRelease
    simp only [NewHelmController, hq, hgate, if_false, if_true, NewInstall]
  · have hgate : ¬ ((kaConfigHelmValues c.Spec ri).len < 1 ∨
        (setKey "nodes" (.maps nodes) .nil).len < 1) := by
      intro h
      rcases h with h | h
      · exact not_len_lt_one _ hne h
      · simp [setKey, Fields.len] at h
    unfold UpgradeRelease
    simp only [NewHelmController, hq, hgate, if_false, if_true, NewInstall]
  · rw [lookup_mergeMaps _ _ hka hnode, mergeAt]
    simp [setKey, lookup, hcm]
  · rw [lookup_mergeMaps _ _ hka hnode, mergeAt]
    simp [setKey, lookup]

/-- C14, on the all-zero configuration with the empty node sequence, and on the
configuration and the node record of `main.go`. -/
theorem end_to_end_install_witness :
    (∃ ctrl client vals,
      UpdateHelmValuesFromKubeArmorConfig
          (UpdateNodeConfigHelmValues (NewHelmController "kubearmor" "kubearmor"
            { Name := "kubearmor", Version := "v1.3.8" }) .nil) KubeArmorConfig.zero =
        some ctrl ∧
      (UpgradeRelease ctrl (sampleEngine ([], some .ErrReleaseNotFound))).2 =
        [Call.install client { Name := "kubearmor", Version := "v1.3.8" } vals] ∧
      client.Timeout = 5 * Minute ∧
      lookup "kubearmorConfigMap" vals =
        some (.map (.cons "alertThrottling" (.str "false") .nil)) ∧
      lookup "nodes" vals = some (.maps .nil)) ∧
    (UpdateHelmValuesFromKubeArmorConfig
        (UpdateNodeConfigHelmValues freshController (.cons nodeBpf .nil)) mainConfig).map
      (fun s => ((UpgradeRelease s (sampleEngine ([], some .ErrReleaseNotFound))).2.length,
        lookup "nodes" (mergeMaps s.kaConfigValues s.nodeConfigValues),
        lookupPath ["kubearmorConfigMap", "visibility"]
          (mergeMaps s.kaConfigValues s.nodeConfigValues))) =
      some (1, some (.maps (.cons nodeBpf .nil)), some (.str "process,file,network")) := by
  constructor
  · obtain ⟨ctrl, client, vals, _, h2, _, _, h5, _, _, h8, _, _, _, h12, h13⟩ :=
      end_to_end_install "kubearmor" "kubearmor" { Name := "kubearmor", Version := "v1.3.8" }
        KubeArmorConfig.zero .nil (sampleEngine ([], some .ErrReleaseNotFound)) [] rfl
    exact ⟨ctrl, client, vals, h2, h5, h8, h12.trans (by decide), h13⟩
  · decide

/-! ## The cleanup pass of `Preinstall` -/

/-- The pass over a list of resources followed by more resources. -/
theorem deleteResources_append (cl : Cluster) (ns : String) :
    ∀ (xs ys : List resource) (done : List DeleteCall),
      deleteResources cl ns (xs ++ ys) done =
        match deleteResources cl ns xs done with
        | (some err, done') => (some err, done')
        | (none, done') => deleteResources cl ns ys done'
  | [], ys, done => by simp [deleteResources]
  | r :: xs, ys, done => by
      simp only [List.cons_append, deleteResources]
      cases hm : cl.RESTMapping r.group r.kind with
      | none => exact deleteResources_append cl ns xs ys done
      | some mapping =>
          simp only []
          cases hd : cl.Delete done
              { gvr := mapping, releaseNamespace := ns, name := r.name } with
          | none => exact deleteResources_append cl ns xs ys _
          | some err =>
              by_cases hnf : IsNotFound err = true
              · simp only [hnf, Bool.not_true, Bool.false_eq_true, if_false]
                exact deleteResources_append cl ns xs ys _
              · have hnf' : IsNotFound err = false := by simpa using hnf
                simp only [hnf', Bool.not_false, if_true]

/-- C16: in the pass of `Preinstall` over the enumerated resources, a resource
whose kind has no REST mapping is skipped and the pass goes on with the next
resource; a delete that succeeds or returns not-found lets the pass go on; the
first delete that returns another error ends the pass with an error naming the
resource, and `Preinstall` returns that error with the failing delete as the
last delete issued: no later resource, DaemonSet or Deployment is deleted. -/
theorem Preinstall_cleanup_pass (cl : Cluster) (ns : String) (r : resource)
    (rest : List resource) (done : List DeleteCall) :
    (cl.RESTMapping r.group r.kind = none →
      deleteResources cl ns (r :: rest) done = deleteResources cl ns rest done) ∧
    (∀ mapping err, cl.RESTMapping r.group r.kind = some mapping →
      cl.Delete done { gvr := mapping, releaseNamespace := ns, name := r.name } = some err →
      IsNotFound err = true →
      deleteResources cl ns (r :: rest) done =
        deleteResources cl ns rest
          (done ++ [{ gvr := mapping, releaseNamespace := ns, name := r.name }])) ∧
    (∀ mapping, cl.RESTMapping r.group r.kind = some mapping →
      cl.Delete done { gvr := mapping, releaseNamespace := ns, name := r.name } = none →
      deleteResources cl ns (r :: rest) done =
        deleteResources cl ns rest
          (done ++ [{ gvr := mapping, releaseNamespace := ns, name := r.name }])) ∧
    (∀ mapping err, cl.RESTMapping r.group r.kind = some mapping →
      cl.Delete done { gvr := mapping, releaseNamespace := ns, name := r.name } = some err →
      IsNotFound err = false →
      deleteResources cl ns (r :: rest) done =
        (some (.errorf ("failed to delete " ++ r.kind ++ " " ++ r.name ++ ": " ++ err.Error)),
          done ++ [{ gvr := mapping, releaseNamespace := ns, name := r.name }])) ∧
    (∀ (cmp : String → String → Int) (ctrl : Controller) (helm : Engine)
      (before : List resource) mapping err,
      cl.Init = none → cl.ToRESTConfig = none →
      checkIfCleanUpRequired cmp helm = some true → cl.NewForConfig = none →
      ns = ctrl.releaseNamespace →
      (cl.cleanUpResources ctrl).1 = before ++ r :: rest →
      deleteResources cl ns before [] = (none, done) →
      cl.RESTMapping r.group r.kind = some mapping →
      cl.Delete done { gvr := mapping, releaseNamespace := ns, name := r.name } = some err →
      IsNotFound err = false →
      Preinstall cmp ctrl helm cl =
        (.returned (some (.errorf
          ("failed to delete " ++ r.kind ++ " " ++ r.name ++ ": " ++ err.Error))),
          done ++ [{ gvr := mapping, releaseNamespace := ns, name := r.name }])) := by
  have hfail : ∀ mapping err, cl.RESTMapping r.group r.kind = some mapping →
      cl.Delete done { gvr := mapping, releaseNamespace := ns, name := r.name } = some err →
      IsNotFound err = false →
      deleteResources cl ns (r :: rest) done =
        (some (.errorf ("failed to delete " ++ r.kind ++ " " ++ r.name ++ ": " ++ err.Error)),
          done ++ [{ gvr := mapping, releaseNamespace := ns, name := r.name }]) := by
    intro mapping err hm hd hnf
    simp only [deleteResources, hm, hd, hnf, Bool.not_false, if_true]
  refine ⟨?_, ?_, ?_, hfail, ?_⟩
  · intro hm
    simp only [deleteResources, hm]
  · intro mapping err hm hd hnf
    simp only [deleteResources, hm, hd, hnf, Bool.not_true, Bool.false_eq_true, if_false]
  · intro mapping hm hd
    simp only [deleteResources, hm, hd]
  · intro cmp ctrl helm before mapping err hi hc hreq hn hns hres hbefore hm hd hnf
    subst hns
    have hpass : deleteResources cl ctrl.releaseNamespace (cl.cleanUpResources ctrl).1 [] =
        (some (.errorf ("failed to delete " ++ r.kind ++ " " ++ r.name ++ ": " ++ err.Error)),
          done ++ [{ gvr := mapping, releaseNamespace := ctrl.releaseNamespace,
                     name := r.name }]) := by
      rw [hres, deleteResources_append, hbefore]
      exact hfail mapping err hm hd hnf
    simp only [Preinstall, hi, hc, hreq, hn, hpass]

/-- C16, on a release history at v1.3.7 and three enumerated resources: the
ConfigMap delete returns not-found and the pass goes on, the custom resource
has no mapping and is skipped, the Service delete is forbidden and `Preinstall`
returns that error: two deletes were issued, none for the DaemonSet
`kubearmor` and none for the Deployment. -/
theorem Preinstall_cleanup_pass_witness :
    Preinstall (fun _ _ => 0) readyController
        (sampleEngine ([sampleRelease "deployed" "v1.3.7" .nil], none))
        (sampleCluster sampleResources sampleMapping sampleDelete ["kubearmor"]) =
      (.returned (some (.errorf "failed to delete Service kubearmor: forbidden")),
        [{ gvr := { Group := "", Version := "v1", Resource := "configmaps" },
           releaseNamespace := "kubearmor", name := "kubearmor-config" },
         { gvr := { Group := "", Version := "v1", Resource := "services" },
           releaseNamespace := "kubearmor", name := "kubearmor" }]) :=
  (Preinstall_cleanup_pass
      (sampleCluster sampleResources sampleMapping sampleDelete ["kubearmor"]) "kubearmor"
      { kind := "Service", name := "kubearmor", group := "" } []
      [{ gvr := { Group := "", Version := "v1", Resource := "configmaps" },
         releaseNamespace := "kubearmor", name := "kubearmor-config" }]).2.2.2.2
    (fun _ _ => 0) readyController
    (sampleEngine ([sampleRelease "deployed" "v1.3.7" .nil], none))
    [{ kind := "ConfigMap", name := "kubearmor-config", group := "" },
     { kind := "KubeArmorPolicy", name := "ksp", group := "security.kubearmor.com" }]
    { Group := "", Version := "v1", Resource := "services" } (.other "forbidden")
    rfl rfl (by decide) rfl rfl rfl (by decide) (by decide) (by decide) (by decide)

/-! ## The projector never fails, and what it does not read -/

/-- What the projector stores under `kubearmorRelay.image`. -/
theorem stored_relayImage (ctrl : Controller) (kaConfig : KubeArmorConfig) :
    ∃ ctrl', UpdateHelmValuesFromKubeArmorConfig ctrl kaConfig = some ctrl' ∧
      ctrl'.kaConfigValues ≠ .nil ∧
      lookupPath ["kubearmorRelay", "image"] ctrl'.kaConfigValues = some (.map
        (if kaConfig.Spec.KubeArmorRelayImage.Image = "" then .nil
         else if ':' ∈ kaConfig.Spec.KubeArmorRelayImage.Image.data then
           .cons "repository" (.str (beforeFirstColon kaConfig.Spec.KubeArmorRelayImage.Image))
             (.cons "tag" (.str (secondPiece kaConfig.Spec.KubeArmorRelayImage.Image)) .nil)
         else .cons "repository" (.str kaConfig.Spec.KubeArmorRelayImage.Image) .nil)) ∧
      lookupPath ["kubearmorRelay", "image", "repository"] ctrl'.kaConfigValues =
        (if kaConfig.Spec.KubeArmorRelayImage.Image = "" then none
         else if ':' ∈ kaConfig.Spec.KubeArmorRelayImage.Image.data then
           some (.str (beforeFirstColon kaConfig.Spec.KubeArmorRelayImage.Image))
         else some (.str kaConfig.Spec.KubeArmorRelayImage.Image)) ∧
      lookupPath ["kubearmorRelay", "image", "tag"] ctrl'.kaConfigValues =
        (if kaConfig.Spec.KubeArmorRelayImage.Image = "" then none
         else if ':' ∈ kaConfig.Spec.KubeArmorRelayImage.Image.data then
           some (.str (secondPiece kaConfig.Spec.KubeArmorRelayImage.Image))
         else none) := by
  have hri := relayImageValues_eq kaConfig.Spec.KubeArmorRelayImage
  generalize hR : (if kaConfig.Spec.KubeArmorRelayImage.Image = "" then Fields.nil
       else if ':' ∈ kaConfig.Spec.KubeArmorRelayImage.Image.data then
         Fields.cons "repository"
           (.str (beforeFirstColon kaConfig.Spec.KubeArmorRelayImage.Image))
           (.cons "tag" (.str (secondPiece kaConfig.Spec.KubeArmorRelayImage.Image)) .nil)
       else .cons "repository" (.str kaConfig.Spec.KubeArmorRelayImage.Image) .nil) = ri at hri
  have hrelay : lookup "kubearmorRelay" (kaConfigHelmValues kaConfig.Spec ri) =
      some (.map (relayValues kaConfig.Spec ri)) := by
    simp [kaConfigHelmValues, lookup_setKey, lookup]
  have himage : lookup "image" (relayValues kaConfig.Spec ri) = some (.map ri) := by
    simp only [relayValues]
    split_ifs <;> simp [lookup_setKey, lookup]
  refine ⟨{ ctrl with kaConfigValues := kaConfigHelmValues kaConfig.Spec ri }, ?_, ?_, ?_, ?_, ?_⟩
  · simp only [UpdateHelmValuesFromKubeArmorConfig, hri]
  · intro h
    simp only [] at h
    rw [h] at hrelay
    simp [lookup] at hrelay
  · simp only [lookupPath, hrelay, himage]
  · simp only [lookupPath, hrelay, himage]
    rw [← hR]
    split_ifs <;> simp [lookup]
  · simp only [lookupPath, hrelay, himage]
    rw [← hR]
    split_ifs <;> simp [lookup]

/-- C18: `UpdateHelmValuesFromKubeArmorConfig` returns for every configuration
and stores a tree; the split of the relay image has a piece at index 0, so the
index expression is in range; under `kubearmorRelay.image` the stored tree is
empty for an empty image, holds `repository` and `tag` for an image with a
colon, and for a non-empty image without a colon holds the key `repository`,
with the whole image, and no key `tag`.  For the relay images `""`, `:`,
`:tag`, `img:`, `a:b:c` and `repo/img` the call returns and stores the maps
shown. -/
theorem UpdateHelmValuesFromKubeArmorConfig_total (ctrl : Controller)
    (kaConfig : KubeArmorConfig) :
    (∃ ctrl', UpdateHelmValuesFromKubeArmorConfig ctrl kaConfig = some ctrl' ∧
      ctrl'.kaConfigValues ≠ .nil ∧
      (∃ piece, (Split kaConfig.Spec.KubeArmorRelayImage.Image ':')[0]? = some piece) ∧
      0 < (Split kaConfig.Spec.KubeArmorRelayImage.Image ':').length ∧
      lookupPath ["kubearmorRelay", "image"] ctrl'.kaConfigValues = some (.map
        (if kaConfig.Spec.KubeArmorRelayImage.Image = "" then .nil
         else if ':' ∈ kaConfig.Spec.KubeArmorRelayImage.Image.data then
           .cons "repository" (.str (beforeFirstColon kaConfig.Spec.KubeArmorRelayImage.Image))
             (.cons "tag" (.str (secondPiece kaConfig.Spec.KubeArmorRelayImage.Image)) .nil)
         else .cons "repository" (.str kaConfig.Spec.KubeArmorRelayImage.Image) .nil)) ∧
      lookupPath ["kubearmorRelay", "image", "repository"] ctrl'.kaConfigValues =
        (if kaConfig.Spec.KubeArmorRelayImage.Image = "" then none
         else if ':' ∈ kaConfig.Spec.KubeArmorRelayImage.Image.data then
           some (.str (beforeFirstColon kaConfig.Spec.KubeArmorRelayImage.Image))
         else some (.str kaConfig.Spec.KubeArmorRelayImage.Image)) ∧
      lookupPath ["kubearmorRelay", "image", "tag"] ctrl'.kaConfigValues =
        (if kaConfig.Spec.KubeArmorRelayImage.Image = "" then none
         else if ':' ∈ kaConfig.Spec.KubeArmorRelayImage.Image.data then
           some (.str (secondPiece kaConfig.Spec.KubeArmorRelayImage.Image))
         else none) ∧
      (kaConfig.Spec.KubeArmorRelayImage.Image ≠ "" →
        ':' ∉ kaConfig.Spec.KubeArmorRelayImage.Image.data →
        lookupPath ["kubearmorRelay", "image"] ctrl'.kaConfigValues = some (.map
          (.cons "repository" (.str kaConfig.Spec.KubeArmorRelayImage.Image) .nil)) ∧
        lookupPath ["kubearmorRelay", "image", "repository"] ctrl'.kaConfigValues =
          some (.str kaConfig.Spec.KubeArmorRelayImage.Image) ∧
        lookupPath ["kubearmorRelay", "image", "tag"] ctrl'.kaConfigValues = none)) ∧
    (UpdateHelmValuesFromKubeArmorConfig ctrl (relayConfig "")).map
        (fun s => lookupPath ["kubearmorRelay", "image"] s.kaConfigValues) =
      some (some (.map .nil)) ∧
    (UpdateHelmValuesFromKubeArmorConfig ctrl (relayConfig ":")).map
        (fun s => lookupPath ["kubearmorRelay", "image"] s.kaConfigValues) =
      some (some (.map (.cons "repository" (.str "") (.cons "tag" (.str "") .nil)))) ∧
    (UpdateHelmValuesFromKubeArmorConfig ctrl (relayConfig ":tag")).map
        (fun s => lookupPath ["kubearmorRelay", "image"] s.kaConfigValues) =
      some (some (.map (.cons "repository" (.str "") (.cons "tag" (.str "tag") .nil)))) ∧
    (UpdateHelmValuesFromKubeArmorConfig ctrl (relayConfig "img:")).map
        (fun s => lookupPath ["kubearmorRelay", "image"] s.kaConfigValues) =
      some (some (.map (.cons "repository" (.str "img") (.cons "tag" (.str "") .nil)))) ∧
    (UpdateHelmValuesFromKubeArmorConfig ctrl (relayConfig "a:b:c")).map
        (fun s => lookupPath ["kubearmorRelay", "image"] s.kaConfigValues) =
      some (some (.map (.cons "repository" (.str "a") (.cons "tag" (.str "b") .nil)))) ∧
    (UpdateHelmValuesFromKubeArmorConfig ctrl (relayConfig "repo/img")).map
        (fun s => (lookupPath ["kubearmorRelay", "image"] s.kaConfigValues,
          lookupPath ["kubearmorRelay", "image", "tag"] s.kaConfigValues)) =
      some (some (.map (.cons "repository" (.str "repo/img") .nil)), none) := by
  have hsplit : Split kaConfig.Spec.KubeArmorRelayImage.Image ':' ≠ [] := by
    unfold Split
    intro h
    exact splitChars_ne_nil ':' _ (List.map_eq_nil_iff.mp h)
  have stored : ∀ c : KubeArmorConfig,
      (UpdateHelmValuesFromKubeArmorConfig ctrl c).map
        (fun s => (lookupPath ["kubearmorRelay", "image"] s.kaConfigValues,
          lookupPath ["kubearmorRelay", "image", "tag"] s.kaConfigValues)) =
      some (some (.map
        (if c.Spec.KubeArmorRelayImage.Image = "" then .nil
         else if ':' ∈ c.Spec.KubeArmorRelayImage.Image.data then
           .cons "repository" (.str (beforeFirstColon c.Spec.KubeArmorRelayImage.Image))
             (.cons "tag" (.str (secondPiece c.Spec.KubeArmorRelayImage.Image)) .nil)
         else .cons "repository" (.str c.Spec.KubeArmorRelayImage.Image) .nil)),
        (if c.Spec.KubeArmorRelayImage.Image = "" then none
         else if ':' ∈ c.Spec.KubeArmorRelayImage.Image.data then
           some (.str (secondPiece c.Spec.KubeArmorRelayImage.Image))
         else none)) := by
    intro c
    obtain ⟨s, hs, _, h1, _, h3⟩ := stored_relayImage ctrl c
    rw [hs]
    simp only [Option.map_some', h1, h3]
  have storedImage : ∀ c : KubeArmorConfig,
      (UpdateHelmValuesFromKubeArmorConfig ctrl c).map
        (fun s => lookupPath ["kubearmorRelay", "image"] s.kaConfigValues) =
      some (some (.map
        (if c.Spec.KubeArmorRelayImage.Image = "" then .nil
         else if ':' ∈ c.Spec.KubeArmorRelayImage.Image.data then
           .cons "repository" (.str (beforeFirstColon c.Spec.KubeArmorRelayImage.Image))
             (.cons "tag" (.str (secondPiece c.Spec.KubeArmorRelayImage.Image)) .nil)
         else .cons "repository" (.str c.Spec.KubeArmorRelayImage.Image) .nil))) := by
    intro c
    obtain ⟨s, hs, _, h1, _, _⟩ := stored_relayImage ctrl c
    rw [hs]
    simp only [Option.map_some', h1]
  obtain ⟨ctrl', hupd, hne, himg, hrepo, htag⟩ := stored_relayImage ctrl kaConfig
  refine ⟨⟨ctrl', hupd, hne, ?_, List.length_pos.mpr hsplit, himg, hrepo, htag, ?_⟩,
    (storedImage (relayConfig "")).trans (by decide),
    (storedImage (relayConfig ":")).trans (by decide),
    (storedImage (relayConfig ":tag")).trans (by decide),
    (storedImage (relayConfig "img:")).trans (by decide),
    (storedImage (relayConfig "a:b:c")).trans (by decide),
    (stored (relayConfig "repo/img")).trans (by decide)⟩
  · cases hs : Split kaConfig.Spec.KubeArmorRelayImage.Image ':' with
    | nil => exact absurd hs hsplit
    | cons p ps => exact ⟨p, by simp⟩
  · intro h1 h2
    rw [himg, hrepo, htag]
    simp only [h1, h2, if_false]
    exact ⟨trivial, trivial, trivial⟩

/-- C18, on the configuration of `main.go` (an image with one colon) and on a
relay image without a colon. -/
theorem UpdateHelmValuesFromKubeArmorConfig_total_witness :
    (∃ ctrl', UpdateHelmValuesFromKubeArmorConfig freshController mainConfig = some ctrl' ∧
      lookupPath ["kubearmorRelay", "image"] ctrl'.kaConfigValues = some (.map
        (.cons "repository" (.str "kubearmor/kubearmor-relay-server")
          (.cons "tag" (.str "latest") .nil)))) ∧
    (∃ ctrl', UpdateHelmValuesFromKubeArmorConfig freshController (relayConfig "repo/img") =
        some ctrl' ∧
      lookupPath ["kubearmorRelay", "image", "repository"] ctrl'.kaConfigValues =
        some (.str "repo/img") ∧
      lookupPath ["kubearmorRelay", "image", "tag"] ctrl'.kaConfigValues = none) := by
  constructor
  · obtain ⟨⟨ctrl', h1, _, _, _, h5, _⟩, _⟩ :=
      UpdateHelmValuesFromKubeArmorConfig_total freshController mainConfig
    exact ⟨ctrl', h1, h5.trans (by decide)⟩
  · obtain ⟨⟨ctrl', h1, _, _, _, _, _, _, h8⟩, _⟩ :=
      UpdateHelmValuesFromKubeArmorConfig_total freshController (relayConfig "repo/img")
    have h := h8 (by decide) (by decide)
    exact ⟨ctrl', h1, h.2.1, h.2.2⟩

/-- C19: two configurations that agree on every spec field other than
`KubeArmorImage`, `KubeArmorInitImage`, `KubeArmorControllerImage`,
`KubeRbacProxyImage` and `SeccompEnabled` leave the same controller, so the
same `kaConfigValues`.  The keys of the stored tree, at every level, are among
the listed ones, none of which is a seccomp key. -/
theorem projection_ignores_images (ctrl : Controller) (c1 c2 : KubeArmorConfig)
    (h1 : c1.Spec.DefaultFilePosture = c2.Spec.DefaultFilePosture)
    (h2 : c1.Spec.DefaultCapabilitiesPosture = c2.Spec.DefaultCapabilitiesPosture)
    (h3 : c1.Spec.DefaultNetworkPosture = c2.Spec.DefaultNetworkPosture)
    (h4 : c1.Spec.DefaultVisibility = c2.Spec.DefaultVisibility)
    (h5 : c1.Spec.KubeArmorRelayImage = c2.Spec.KubeArmorRelayImage)
    (h6 : c1.Spec.Tls = c2.Spec.Tls)
    (h7 : c1.Spec.EnableStdOutLogs = c2.Spec.EnableStdOutLogs)
    (h8 : c1.Spec.EnableStdOutAlerts = c2.Spec.EnableStdOutAlerts)
    (h9 : c1.Spec.EnableStdOutMsgs = c2.Spec.EnableStdOutMsgs)
    (h10 : c1.Spec.AlertThrottling = c2.Spec.AlertThrottling)
    (h11 : c1.Spec.MaxAlertPerSec = c2.Spec.MaxAlertPerSec)
    (h12 : c1.Spec.ThrottleSec = c2.Spec.ThrottleSec) :
    UpdateHelmValuesFromKubeArmorConfig ctrl c1 = UpdateHelmValuesFromKubeArmorConfig ctrl c2 ∧
    ∃ ctrl' cm tls relay relayTLS relayImage,
      UpdateHelmValuesFromKubeArmorConfig ctrl c1 = some ctrl' ∧
      ctrl'.kaConfigValues =
        .cons "kubearmorConfigMap" (.map cm)
          (.cons "tls" (.map tls) (.cons "kubearmorRelay" (.map relay) .nil)) ∧
      cm.keys ⊆ ["defaultFilePosture", "defaultCapabilitiesPosture", "defaultNetworkPosture",
        "visibility", "alertThrottling", "maxAlertPerSec", "throttleSec"] ∧
      tls.keys = ["enabled"] ∧
      relay.keys ⊆ ["tls", "image", "imagePullPolicy", "enableStdoutLogs",
        "enableStdoutAlerts", "enableStdoutMsg"] ∧
      lookup "tls" relay = some (.map relayTLS) ∧
      lookup "image" relay = some (.map relayImage) ∧
      relayTLS.keys ⊆ ["extraDnsNames", "extraIpAddresses"] ∧
      relayImage.keys ⊆ ["repository", "tag"] := by
  constructor
  · simp only [UpdateHelmValuesFromKubeArmorConfig, kaConfigHelmValues, configMapValues,
      relayValues, h1, h2, h3, h4, h5, h6, h7, h8, h9, h10, h11, h12]
  · obtain ⟨ri, hri, hkeys⟩ : ∃ ri,
        relayImageValues c1.Spec.KubeArmorRelayImage = some ri ∧
        ri.keys ⊆ ["repository", "tag"] :=
      ⟨_, relayImageValues_eq _, by split_ifs <;> simp [Fields.keys]⟩
    refine ⟨{ ctrl with kaConfigValues := kaConfigHelmValues c1.Spec ri },
      configMapValues c1.Spec, setKey "enabled" (.bool c1.Spec.Tls.Enable) .nil,
      relayValues c1.Spec ri, relayTLSValues c1.Spec.Tls, ri, ?_, ?_, ?_, rfl, ?_, ?_, ?_,
      ?_, hkeys⟩
    · simp only [UpdateHelmValuesFromKubeArmorConfig, hri]
    · simp [kaConfigHelmValues, setKey]
    · rw [configMapValues_keys]
      intro k hk
      simp only [List.mem_append, List.mem_singleton] at hk
      simp only [List.mem_cons, List.mem_singleton, List.not_mem_nil, or_false]
      rcases hk with ((((((hk | hk) | hk) | hk) | hk) | hk) | hk)
      all_goals first
        | (split_ifs at hk <;> simp_all)
        | simp_all
    · rw [relayValues_keys]
      intro k hk
      simp only [List.mem_append, List.mem_cons, List.mem_singleton, List.not_mem_nil,
        or_false] at hk ⊢
      rcases hk with ((hk | hk) | hk) | hk
      · simp [hk]
      · simp [hk]
      · split_ifs at hk <;> simp_all
      · rcases hk with hk | hk | hk <;> simp [hk]
    · simp only [relayValues]
      split_ifs <;> simp [lookup_setKey, lookup]
    · simp only [relayValues]
      split_ifs <;> simp [lookup_setKey, lookup]
    · rw [relayTLSValues_keys]
      intro k hk
      simp only [List.mem_append] at hk
      rcases hk with hk | hk <;> split_ifs at hk <;> simp_all

/-- C19, on the configuration of `main.go` and the same configuration with the
four other images and the seccomp flag set. -/
theorem projection_ignores_images_witness :
    UpdateHelmValuesFromKubeArmorConfig freshController mainConfig =
      UpdateHelmValuesFromKubeArmorConfig freshController
        { mainConfig with
          Spec := { mainConfig.Spec with
            KubeArmorImage := { Image := "kubearmor/kubearmor:stable", ImagePullPolicy := "" }
            KubeArmorInitImage :=
              { Image := "kubearmor/kubearmor-init:stable", ImagePullPolicy := "Always" }
            KubeArmorControllerImage :=
              { Image := "kubearmor/kubearmor-controller", ImagePullPolicy := "" }
            KubeRbacProxyImage :=
              { Image := "gcr.io/kubebuilder/kube-rbac-proxy:v0.15.0", ImagePullPolicy := "" }
            SeccompEnabled := true } } :=
  (projection_ignores_images freshController mainConfig _
    rfl rfl rfl rfl rfl rfl rfl rfl rfl rfl rfl rfl).1

end Helm
